import Mathlib

/-!
# component-operator-runtime: manifest generation and component types

A shallow embedding of
* `pkg/component/types.go` (component spec/status, inventory items, phases),
* `examples/helm/api/v1alpha1/types.go` (the `HelmComponent` accessors and `PostReadHook`),
* `pkg/manifests/kustomize.go` (`NewKustomizeGenerator`, `KustomizeGenerator.Generate`),
* `scaffold/scaffold.go` (`validateAndDefaultConfig`, `renderTemplate`).

Go conventions used throughout:
* a Go `error` is its message, `Option Error` is a possibly-nil error;
* a nil slice and an empty slice are both the empty list;
* a method with a pointer receiver returns its result together with the receiver
  as it is after the call.
-/

set_option autoImplicit false

namespace ComponentOperatorRuntime

/-- A Go `error` value, identified with its message. -/
abbrev Error := String

/-- Go `[]byte`, kept as text. -/
abbrev Bytes := String

deriving instance DecidableEq for Except

/-! ## pkg/component/types.go -/

namespace component

/-- The `metav1.Time` values of the status, as seconds since the epoch. -/
abbrev Time := Int

/-- Go `component.Spec`. -/
structure Spec where
  Namespace : String
  Name : String
  deriving DecidableEq, Repr

/-- Go `component.ConditionType`. -/
abbrev ConditionType := String

/-- Go `component.ConditionStatus`. -/
abbrev ConditionStatus := String

/-- Go `component.State`. -/
abbrev State := String

def ConditionTypeReady : ConditionType := "Ready"
def ConditionTrue : ConditionStatus := "True"
def ConditionFalse : ConditionStatus := "False"
def ConditionUnknown : ConditionStatus := "Unknown"

def StateReady : State := "Ready"
def StateProcessing : State := "Processing"
def StateError : State := "Error"
def StateDeleting : State := "Deleting"

/-- Go `component.Condition`; the field `Type` is written `Type_`. -/
structure Condition where
  Type_ : ConditionType
  Status : ConditionStatus
  LastTransitionTime : Option Time
  Reason : String
  Message : String
  deriving DecidableEq, Repr

/-- Go `component.TypeInfo`. -/
structure TypeInfo where
  Group : String
  Version : String
  Kind : String
  deriving DecidableEq, Repr

/-- Go `component.NameInfo`. -/
structure NameInfo where
  Namespace : String
  Name : String
  deriving DecidableEq, Repr

/-- Go `component.InventoryItem`; the two embedded structs are the first two fields. -/
structure InventoryItem where
  toTypeInfo : TypeInfo
  toNameInfo : NameInfo
  ManagedTypes : List TypeInfo
  Digest : String
  Phase : String
  Status : String
  deriving DecidableEq, Repr

def PhaseScheduledForApplication : String := "ScheduledForApplication"
def PhaseScheduledForDeletion : String := "ScheduledForDeletion"
def PhaseScheduledForCompletion : String := "ScheduledForCompletion"
def PhaseCreating : String := "Creating"
def PhaseUpdating : String := "Updating"
def PhaseDeleting : String := "Deleting"
def PhaseCompleting : String := "Completing"
def PhaseReady : String := "Ready"
def PhaseCompleted : String := "Completed"

/-- Go `component.Status`. -/
structure Status where
  ObservedGeneration : Int
  AppliedGeneration : Int
  LastObservedAt : Option Time
  LastAppliedAt : Option Time
  Conditions : List Condition
  State : State
  Inventory : List InventoryItem
  deriving DecidableEq, Repr

end component

/-! ## examples/helm/api/v1alpha1/types.go -/

namespace v1alpha1

/-- Go `metav1.TypeMeta`. -/
structure TypeMeta where
  Kind : String
  APIVersion : String
  deriving DecidableEq, Repr

/-- Go `metav1.ObjectMeta`: the two fields the component reads (`Namespace`, `Name`) and
the other identifying and bookkeeping fields of the object metadata. -/
structure ObjectMeta where
  Name : String
  GenerateName : String
  Namespace : String
  UID : String
  ResourceVersion : String
  Generation : Int
  Labels : List (String × String)
  Annotations : List (String × String)
  Finalizers : List String
  deriving DecidableEq, Repr

/-- Go `HelmComponentSpec`: `component.Spec` inlined, no further fields. -/
structure HelmComponentSpec where
  toSpec : component.Spec
  deriving DecidableEq, Repr

/-- Go `HelmComponentStatus`: `component.Status` inlined, no further fields. -/
structure HelmComponentStatus where
  toStatus : component.Status
  deriving DecidableEq, Repr

/-- Go `HelmComponent`. -/
structure HelmComponent where
  toTypeMeta : TypeMeta
  toObjectMeta : ObjectMeta
  Spec : HelmComponentSpec
  Status : HelmComponentStatus
  deriving DecidableEq, Repr

/-- Go `(c *HelmComponent) GetDeploymentNamespace()`: the returned string and the receiver
after the call. -/
def HelmComponent.GetDeploymentNamespace (c : HelmComponent) : String × HelmComponent :=
  if c.Spec.toSpec.Namespace ≠ "" then
    (c.Spec.toSpec.Namespace, c)
  else
    (c.toObjectMeta.Namespace, c)

/-- Go `(c *HelmComponent) GetDeploymentName()`: the returned string and the receiver
after the call. -/
def HelmComponent.GetDeploymentName (c : HelmComponent) : String × HelmComponent :=
  if c.Spec.toSpec.Name ≠ "" then
    (c.Spec.toSpec.Name, c)
  else
    (c.toObjectMeta.Name, c)

/-- The assignment `c.Spec.Namespace = v`. -/
def HelmComponent.setSpecNamespace (c : HelmComponent) (v : String) : HelmComponent :=
  { c with Spec := { c.Spec with toSpec := { c.Spec.toSpec with Namespace := v } } }

/-- The assignment `c.Spec.Name = v`. -/
def HelmComponent.setSpecName (c : HelmComponent) (v : String) : HelmComponent :=
  { c with Spec := { c.Spec with toSpec := { c.Spec.toSpec with Name := v } } }

/-- Go `PostReadHook(ctx, client, c)`: the returned error and `c` after the call.
The context and the client are not used by the hook. -/
def PostReadHook {Context Client : Type} (_ctx : Context) (_client : Client)
    (c : HelmComponent) : Option Error × HelmComponent :=
  let c := if c.Spec.toSpec.Namespace = "" then c.setSpecNamespace c.toObjectMeta.Namespace else c
  let c := if c.Spec.toSpec.Name = "" then c.setSpecName c.toObjectMeta.Name else c
  (none, c)

end v1alpha1

/-! ## Libraries used by pkg/manifests/kustomize.go and scaffold/scaffold.go

The Go standard library, `text/template`, kustomize and the YAML decoder are not part of the
repository. Their types are given below; their functions are fields of `Externals`. -/

namespace manifests

/-- A value of Go type `any` found in template data: nil, a scalar, or a nested
`map[string]any` given by its entries in key order. -/
inductive Value where
  | nil
  | string (s : String)
  | number (n : Int)
  | bool (b : Bool)
  | map (entries : List (String × Value))

/-- Go `map[string]any`, the result of `ToUnstructured()`, given by its entries in key
order. -/
abbrev Data := List (String × Value)

/-- Go interface `types.Unstructurable`. -/
structure Unstructurable where
  ToUnstructured : Data

/-- The `missingkey` option of a `text/template` template. -/
inductive MissingKey where
  | default
  | zero
  | error
  deriving DecidableEq, Repr

/-- A node of a parsed template: literal text (Go `parse.TextNode`), the action that
evaluates and prints a chain of fields of the data such as `.a` or `.a.b` (Go
`parse.FieldNode` with its identifiers), or any other action, kept as its source text. -/
inductive Node where
  | text (s : String)
  | field (ident : List String)
  | action (src : String)
  deriving DecidableEq, Repr

/-- Go `*template.Template`: its name, its `missingkey` option and its parse tree. -/
structure Template where
  Name : String
  option : MissingKey
  Tree : List Node
  deriving DecidableEq, Repr

/-- Go `template.New(name)` and `t.New(name)`: a new, empty template called `name`. -/
def Template.New (name : String) : Template :=
  { Name := name, option := MissingKey.default, Tree := [] }

/-- Go `t.Option(opt)` for the three `missingkey` settings. -/
def Template.Option (t : Template) (opt : String) : Template :=
  if opt = "missingkey=zero" then { t with option := MissingKey.zero }
  else if opt = "missingkey=error" then { t with option := MissingKey.error }
  else if opt = "missingkey=default" ∨ opt = "missingkey=invalid" then
    { t with option := MissingKey.default }
  else t

/-- An entry visited by `fs.WalkDir`: the three arguments of the walk function, with
`regular` the value of `dirEntry.Type().IsRegular()`. -/
structure WalkEntry where
  path : String
  regular : Bool
  err : Option Error
  deriving DecidableEq, Repr

/-- Go `fs.FS`, as far as the generator uses it: the entries `fs.WalkDir` visits from a root,
in order, and `fs.ReadFile`. -/
structure FS where
  WalkDir : String → List WalkEntry
  ReadFile : String → Except Error String

/-- Go `kustypes.LoadRestrictions`. -/
inductive LoadRestrictions where
  | LoadRestrictionsUnknown
  | LoadRestrictionsRootOnly
  | LoadRestrictionsNone
  deriving DecidableEq, Repr

/-- Go `kustypes.PluginConfig`, reduced to whether plugins are enabled. -/
structure PluginConfig where
  enabled : Bool
  deriving DecidableEq, Repr

/-- Go `kustypes.DisabledPluginConfig()`. -/
def DisabledPluginConfig : PluginConfig := { enabled := false }

/-- Go `krusty.Options`, the two fields the generator sets. -/
structure Options where
  LoadRestrictions : LoadRestrictions
  PluginConfig : PluginConfig
  deriving DecidableEq, Repr

/-- Go `*krusty.Kustomizer`. -/
structure Kustomizer where
  options : Options
  deriving DecidableEq, Repr

/-- Go `krusty.MakeKustomizer(options)`. -/
def MakeKustomizer (options : Options) : Kustomizer := { options := options }

/-- Modelled from the spec: the virtual file tree of kustomize (`kustfsys.MakeFsInMemory()`),
which is not part of the repository: "an in-memory tree keyed by slash-separated relative
paths" holding the rendered artifacts, each a "(path, byte content) pair". -/
structure FsInMemory where
  files : List (String × Bytes)
  deriving DecidableEq, Repr

/-- Go `kustfsys.MakeFsInMemory()`: a fresh, empty tree. -/
def MakeFsInMemory : FsInMemory := { files := [] }

/-- Replace the content at `path`, or add the file at the end when there is none. -/
def FsInMemory.put : List (String × Bytes) → String → Bytes → List (String × Bytes)
  | [], path, data => [(path, data)]
  | (p, d) :: rest, path, data =>
    if p = path then (p, data) :: rest else (p, d) :: FsInMemory.put rest path data

/-- Reading a file of the tree. -/
def FsInMemory.ReadFile (fsys : FsInMemory) (path : String) : Option Bytes :=
  (fsys.files.find? (fun f => f.1 = path)).map Prod.snd

/-- The identity and body of a decoded document, the content of the `Object` map of an
`unstructured.Unstructured`. -/
structure ObjectMap where
  Group : String
  Version : String
  Kind : String
  Namespace : String
  Name : String
  Body : String
  deriving DecidableEq, Repr

/-- Go `unstructured.Unstructured`; `Object` is `none` for a nil map. -/
structure Unstructured where
  Object : Option ObjectMap
  deriving DecidableEq, Repr

/-- The identity (group, version, kind, namespace, name) of an object. -/
def Unstructured.identity (o : Unstructured) : Option (String × String × String × String × String) :=
  o.Object.map (fun m => (m.Group, m.Version, m.Kind, m.Namespace, m.Name))

/-- What one call of `decoder.Decode(&object.Object)` does with the next document of the
stream: it fills the map, or leaves it nil (an empty document), or returns an error. -/
inductive Document where
  | object (m : ObjectMap)
  | empty
  | malformed (err : Error)
  deriving DecidableEq, Repr

/-- Whether decoding the document fails. -/
def Document.isMalformed : Document → Bool
  | .malformed _ => true
  | _ => false

/-- The object a document decodes to, when it decodes to a non-nil object. -/
def Document.decoded : Document → Option Unstructured
  | .object m => some { Object := some m }
  | _ => none

/-- The position in the stream of the first document that fails to decode. -/
def firstMalformedIndex : List Document → Option Nat
  | [] => none
  | d :: rest => if d.isMalformed then some 0 else (firstMalformedIndex rest).map (· + 1)

/-- Go `*utilyaml.YAMLToJSONDecoder`: the documents not yet decoded; `Decode` returns
`io.EOF` when there is none left. -/
abbrev YAMLToJSONDecoder := List Document

/-- The library functions the generator and the scaffold call. `ResMap` is the type of
`resmap.ResMap`. -/
structure Externals (ResMap : Type) where
  /-- Go `os.DirFS`. -/
  DirFS : String → FS
  /-- Go `filepath.Abs`. -/
  Abs : String → Except Error String
  /-- Go `filepath.Rel`. -/
  Rel : String → String → Except Error String
  /-- Go `t.Parse(text)`: the parse tree of the text, with the function maps of `t`. -/
  Parse : String → Except Error (List Node)
  /-- Go `t.Execute(&buf, data)`: the bytes written to the buffer. -/
  Execute : Template → Data → Except Error Bytes
  /-- The error of `fsys.WriteFile(path, data)`, if it fails. -/
  WriteFileError : FsInMemory → String → Bytes → Option Error
  /-- Go `kustomizer.Run(fsys, path)`. -/
  Run : Kustomizer → FsInMemory → String → Except Error ResMap
  /-- Go `resmap.AsYaml()`. -/
  AsYaml : ResMap → Except Error Bytes
  /-- Go `utilyaml.NewYAMLToJSONDecoder(bytes.NewBuffer(raw))`. -/
  NewYAMLToJSONDecoder : Bytes → YAMLToJSONDecoder

/-- Go `fsys.WriteFile(path, data)` on the in-memory tree. -/
def FsInMemory.WriteFile {ResMap : Type} (ext : Externals ResMap) (fsys : FsInMemory)
    (path : String) (data : Bytes) : Except Error FsInMemory :=
  match ext.WriteFileError fsys path data with
  | some err => .error err
  | none => .ok { files := FsInMemory.put fsys.files path data }

/-! ### The overlay composer

The part of kustomize (packages `krusty`, `resmap` and `resid`, not part of the repository)
that decides whether two resources may be in one resource map, transcribed; the loading of
the files of a kustomization and the transformations are parameters. -/

/-- The identity (group, version, kind, namespace, name) of the content of a document. -/
def ObjectMap.identity (m : ObjectMap) : String × String × String × String × String :=
  (m.Group, m.Version, m.Kind, m.Namespace, m.Name)

/-- What the composer does while it accumulates the resources of a kustomization: it ends,
fails, reads a file through the file system it was given and goes on with the content (or
with `none` when the file does not exist), or appends a resource to its resource map and
goes on. -/
inductive Accumulation where
  | done
  | fail (err : Error)
  | read (path : String) (next : Option Bytes → Accumulation)
  | append (res : ObjectMap) (next : Accumulation)

/-- The composer of kustomize. `ResMap` is the type of `resmap.ResMap`. -/
structure Composer (ResMap : Type) where
  /-- The accumulation of the resources of the kustomization at a path. -/
  accumulate : Kustomizer → String → Accumulation
  /-- Go `Gvk.IsClusterScoped` on group, version and kind. -/
  IsClusterScoped : String → String → String → Bool
  /-- The error of the composer for a resource whose id is already registered. -/
  idError : ObjectMap → Error
  /-- The transformations applied to the accumulated resources. -/
  transform : Kustomizer → List ObjectMap → Except Error ResMap

/-- Go `ResId.EffectiveNamespace` of the id of a resource. -/
def EffectiveNamespace (IsClusterScoped : String → String → String → Bool) (res : ObjectMap) :
    String :=
  if IsClusterScoped res.Group res.Version res.Kind then "_non_namespaceable_"
  else if res.Namespace = "" then "default"
  else res.Namespace

/-- Go `ResId.Equals` on the ids of two resources: the same effective namespace, name,
group, version and kind. -/
def ResIdEquals (IsClusterScoped : String → String → String → Bool) (a b : ObjectMap) : Bool :=
  EffectiveNamespace IsClusterScoped a = EffectiveNamespace IsClusterScoped b ∧
    a.Name = b.Name ∧ a.Group = b.Group ∧ a.Version = b.Version ∧ a.Kind = b.Kind

/-- Go `resWrangler.Append`: a resource whose id equals that of a resource already in the
map is refused ("may not add resource with an already registered id"). -/
def Composer.Append {ResMap : Type} (c : Composer ResMap) (m : List ObjectMap)
    (res : ObjectMap) : Except Error (List ObjectMap) :=
  if m.any (fun r => ResIdEquals c.IsClusterScoped res r) then .error (c.idError res)
  else .ok (m ++ [res])

/-- The run of an accumulation on the resource map `m`, every read answered by
`readFile`. -/
def Accumulation.run {ResMap : Type} (c : Composer ResMap) (readFile : String → Option Bytes) :
    Accumulation → List ObjectMap → Except Error (List ObjectMap)
  | .done, m => .ok m
  | .fail err, _ => .error err
  | .read path next, m => Accumulation.run c readFile (next (readFile path)) m
  | .append res next, m =>
    match c.Append m res with
    | .error err => .error err
    | .ok m => Accumulation.run c readFile next m

/-- The resources an accumulation hands to `Append`, in order, when every read is answered
by `readFile`. -/
def Accumulation.appended (readFile : String → Option Bytes) : Accumulation → List ObjectMap
  | .done => []
  | .fail _ => []
  | .read path next => Accumulation.appended readFile (next (readFile path))
  | .append res next => res :: Accumulation.appended readFile next

/-- The composition with every read answered by `readFile`: the resources are accumulated
into an empty resource map and then transformed. -/
def Composer.RunWith {ResMap : Type} (c : Composer ResMap) (kustomizer : Kustomizer)
    (readFile : String → Option Bytes) (path : String) : Except Error ResMap :=
  match (c.accumulate kustomizer path).run c readFile [] with
  | .error err => .error err
  | .ok m => c.transform kustomizer m

/-- Go `kustomizer.Run(fsys, path)` for this composer: every read is answered by the
tree. -/
def Composer.Run {ResMap : Type} (c : Composer ResMap) (kustomizer : Kustomizer)
    (fsys : FsInMemory) (path : String) : Except Error ResMap :=
  c.RunWith kustomizer fsys.ReadFile path

/-- The rendered artifact at a path: the output of the first template with that name, if
there is one and it executes. -/
def renderedArtifact {ResMap : Type} (ext : Externals ResMap) (templates : List Template)
    (data : Data) (path : String) : Option Bytes :=
  match templates.find? (fun t => t.Name = path) with
  | some t => (ext.Execute t data).toOption
  | none => none

/-- Go `t.Parse(text)`: sets the parse tree of `t`. -/
def Template.Parse {ResMap : Type} (ext : Externals ResMap) (t : Template) (text : String) :
    Except Error Template :=
  match ext.Parse text with
  | .error err => .error err
  | .ok tree => .ok { t with Tree := tree }

/-- Go `strings.HasSuffix(s, suffix)`. -/
def HasSuffix (s suffix : String) : Bool :=
  suffix.data.isSuffixOf s.data

/-! ## pkg/manifests/kustomize.go -/

/-- Go `KustomizeGenerator`. -/
structure KustomizeGenerator where
  kustomizer : Kustomizer
  templates : List Template
  deriving DecidableEq, Repr

/-- How a Go call ends: it returns a value, returns an error, or panics. -/
inductive Outcome (α : Type) where
  | value (a : α)
  | error (err : Error)
  | panic (err : Error)
  deriving DecidableEq, Repr

/-- The walk function passed to `fs.WalkDir` in `NewKustomizeGenerator` (lines 72-106),
on the templates collected so far (`g.templates`): the templates after the call, the error
it returns, or the panic on a failing `filepath.Rel`. `template.New(name)` and `t.New(name)`
both give a new template called `name`; the function maps attached by `Funcs` are part of
what `ext.Parse` and `ext.Execute` do. -/
def NewKustomizeGenerator.walkFn {ResMap : Type} (ext : Externals ResMap) (fsys : FS)
    (kustomizationPath templateSuffix : String) (templates : List Template)
    (e : WalkEntry) : Outcome (List Template) :=
  match e.err with
  | some err => .error err
  | none =>
    if !e.regular then .value templates
    else if !HasSuffix e.path templateSuffix then .value templates
    else
      match fsys.ReadFile e.path with
      | .error err => .error err
      | .ok raw =>
        match ext.Rel kustomizationPath e.path with
        | .error err => .panic err
        | .ok name =>
          let t := (Template.New name).Option "missingkey=zero"
          match t.Parse ext raw with
          | .error err => .error err
          | .ok t => .value (templates ++ [t])

/-- Go `fs.WalkDir` with the walk function above: the walk stops at the first entry for
which the function does not return nil. -/
def NewKustomizeGenerator.walk {ResMap : Type} (ext : Externals ResMap) (fsys : FS)
    (kustomizationPath templateSuffix : String) :
    List WalkEntry → List Template → Outcome (List Template)
  | [], templates => .value templates
  | e :: rest, templates =>
    match NewKustomizeGenerator.walkFn ext fsys kustomizationPath templateSuffix templates e with
    | .value templates => NewKustomizeGenerator.walk ext fsys kustomizationPath templateSuffix rest templates
    | .error err => .error err
    | .panic err => .panic err

/-- Lines 53-60 of `NewKustomizeGenerator`: the file system and the path that are walked;
for a nil `fsys` these are the root file system and the absolute path without its leading
slash. -/
def NewKustomizeGenerator.resolve {ResMap : Type} (ext : Externals ResMap) (fsys : Option FS)
    (kustomizationPath : String) : Except Error (FS × String) :=
  match fsys with
  | some fsys => .ok (fsys, kustomizationPath)
  | none =>
    match ext.Abs kustomizationPath with
    | .error err => .error err
    | .ok absoluteKustomizationPath => .ok (ext.DirFS "/", absoluteKustomizationPath.drop 1)

/-- Go `NewKustomizeGenerator(fsys, kustomizationPath, templateSuffix, client)`; `fsys` is
`none` for a nil file system. The client only enters the function maps of the templates. -/
def NewKustomizeGenerator {ResMap Client : Type} (ext : Externals ResMap) (fsys : Option FS)
    (kustomizationPath templateSuffix : String) (_client : Client) :
    Outcome KustomizeGenerator :=
  match NewKustomizeGenerator.resolve ext fsys kustomizationPath with
  | .error err => .error err
  | .ok (fsys, kustomizationPath) =>
    let options : Options :=
      { LoadRestrictions := LoadRestrictions.LoadRestrictionsNone,
        PluginConfig := DisabledPluginConfig }
    let kustomizer := MakeKustomizer options
    match NewKustomizeGenerator.walk ext fsys kustomizationPath templateSuffix
        (fsys.WalkDir kustomizationPath) [] with
    | .error err => .error err
    | .panic err => .panic err
    | .value templates => .value { kustomizer := kustomizer, templates := templates }

/-- The first loop of `Generate` (lines 139-147): every template is executed and its output
written to the tree under the template's name; the first error ends the loop. -/
def KustomizeGenerator.renderLoop {ResMap : Type} (ext : Externals ResMap) (data : Data) :
    List Template → FsInMemory → Except Error FsInMemory
  | [], fsys => .ok fsys
  | t :: ts, fsys =>
    match ext.Execute t data with
    | .error err => .error err
    | .ok buf =>
      match fsys.WriteFile ext t.Name buf with
      | .error err => .error err
      | .ok fsys => KustomizeGenerator.renderLoop ext data ts fsys

/-- The second loop of `Generate` (lines 160-172) and the final return (line 174), on the
documents left in the decoder and the objects collected so far: the pair `Generate`
returns. -/
def KustomizeGenerator.decodeLoop :
    YAMLToJSONDecoder → List Unstructured → List Unstructured × Option Error
  | [], objects => (objects, none)
  | .malformed err :: _, _ => ([], some err)
  | .empty :: decoder, objects => KustomizeGenerator.decodeLoop decoder objects
  | .object m :: decoder, objects =>
    KustomizeGenerator.decodeLoop decoder (objects ++ [{ Object := some m }])

/-- Lines 149-174 of `Generate`: the overlay composition on the tree `fsys`, the
serialisation of its result and the decoding of the documents. -/
def KustomizeGenerator.compose {ResMap : Type} (ext : Externals ResMap)
    (g : KustomizeGenerator) (fsys : FsInMemory) (objects : List Unstructured) :
    List Unstructured × Option Error :=
  match ext.Run g.kustomizer fsys "/" with
  | .error err => ([], some err)
  | .ok resmap =>
    match ext.AsYaml resmap with
    | .error err => ([], some err)
    | .ok raw => KustomizeGenerator.decodeLoop (ext.NewYAMLToJSONDecoder raw) objects

/-- Go `(g *KustomizeGenerator) Generate(namespace, name, parameters)`: the returned object
list (empty for nil) and the returned error. As in the source, `namespace` and `name` are
not used. -/
def KustomizeGenerator.Generate {ResMap : Type} (ext : Externals ResMap)
    (g : KustomizeGenerator) (_namespace _name : String) (parameters : Unstructurable) :
    List Unstructured × Option Error :=
  let objects : List Unstructured := []
  let data := parameters.ToUnstructured
  let fsys := MakeFsInMemory
  match KustomizeGenerator.renderLoop ext data g.templates fsys with
  | .error err => ([], some err)
  | .ok fsys => KustomizeGenerator.compose ext g fsys objects

/-! ## The template engine on missing keys

The execution of field references by Go `text/template` (file exec.go of the standard
library, not part of the repository), transcribed for data of type `map[string]any`. -/

mutual
/-- Go `fmt` printing a value with `%v`. -/
def Value.format : Value → String
  | .nil => "<nil>"
  | .string s => s
  | .number n => toString n
  | .bool b => toString b
  | .map entries => "map[" ++ Value.formatEntries entries ++ "]"
/-- Go `fmt` printing the entries of a map, in key order. -/
def Value.formatEntries : List (String × Value) → String
  | [] => ""
  | (k, v) :: rest =>
    k ++ ":" ++ v.format ++ (if rest.isEmpty then "" else " ") ++ Value.formatEntries rest
end

/-- Go `reflect.Value` of a value taken from unstructured data; `none` is the invalid
`reflect.Value`. -/
abbrev ReflectValue := Option Value

/-- Go `printValue` of the engine on the result of a pipeline: an invalid value and a nil
interface print as `<no value>`. -/
def printValue : ReflectValue → String
  | none => "<no value>"
  | some .nil => "<no value>"
  | some v => v.format

/-- Go `%q` of a field name without characters that need escaping. -/
def quote (s : String) : String := "\"" ++ s ++ "\""

/-- Go `(s *state) evalField` on a receiver taken from unstructured data. The result is the value of the field or the message passed to
`s.errorf`. A key missing from a map gives the invalid value under the default option, the
zero value of the element type `any` (a nil interface) under `missingkey=zero` and an error
under `missingkey=error`; a field of a nil interface is an error under every option. -/
def Template.evalField (t : Template) (receiver : ReflectValue) (fieldName : String) :
    Except String ReflectValue :=
  match receiver with
  | none =>
    if t.option = MissingKey.error then
      .error ("nil data; no entry for key " ++ quote fieldName)
    else .ok none
  | some .nil => .error ("nil pointer evaluating interface {}." ++ fieldName)
  | some (.map entries) =>
    match entries.lookup fieldName with
    | some v => .ok (some v)
    | none =>
      match t.option with
      | .default => .ok none
      | .zero => .ok (some Value.nil)
      | .error => .error ("map has no entry for key " ++ quote fieldName)
  | some _ => .error ("can't evaluate field " ++ fieldName ++ " in type interface {}")

/-- Go `(s *state) evalFieldChain`: the fields of the chain are evaluated from left to
right, each on the result of the one before. -/
def Template.evalFieldChain (t : Template) :
    ReflectValue → List String → Except String ReflectValue
  | receiver, [] => .ok receiver
  | receiver, fieldName :: rest =>
    match t.evalField receiver fieldName with
    | .error msg => .error msg
    | .ok value => Template.evalFieldChain t value rest

/-- The execution of the nodes of a template, in order, appending to the output buffer; the
first failing node ends the execution. `evalAction` evaluates the actions other than field
chains; `errorf` is Go `s.errorf`, which puts the template name, the location and the node
in front of the message. -/
def Template.execNodes (evalAction : Template → String → Data → Except Error String)
    (errorf : Template → Node → String → Error) (t : Template) (data : Data) :
    List Node → Bytes → Except Error Bytes
  | [], buf => .ok buf
  | .text s :: nodes, buf => Template.execNodes evalAction errorf t data nodes (buf ++ s)
  | .field ident :: nodes, buf =>
    match t.evalFieldChain (some (Value.map data)) ident with
    | .error msg => .error (errorf t (.field ident) msg)
    | .ok value => Template.execNodes evalAction errorf t data nodes (buf ++ printValue value)
  | .action src :: nodes, buf =>
    match evalAction t src data with
    | .error err => .error err
    | .ok out => Template.execNodes evalAction errorf t data nodes (buf ++ out)

/-- Go `t.Execute(&buf, data)` of `text/template`, on an empty buffer. -/
def Template.Execute (evalAction : Template → String → Data → Except Error String)
    (errorf : Template → Node → String → Error) (t : Template) (data : Data) :
    Except Error Bytes :=
  Template.execNodes evalAction errorf t data t.Tree ""

end manifests

/-! ## scaffold/scaffold.go -/

namespace scaffold

open manifests

/-- Go `Config`. -/
structure Config where
  Owner : String
  GroupName : String
  GroupVersion : String
  Kind : String
  Resource : String
  OperatorName : String
  GoVersion : String
  GoModule : String
  Version : String
  KubernetesVersion : String
  ControllerRuntimeVersion : String
  Image : String
  deriving DecidableEq, Repr

/-- Go `schema.GroupVersionKind`. -/
structure GroupVersionKind where
  Group : String
  Version : String
  Kind : String
  deriving DecidableEq, Repr

/-- Go `schema.GroupVersionResource`. -/
structure GroupVersionResource where
  Group : String
  Version : String
  Resource : String
  deriving DecidableEq, Repr

/-- Go `strings.TrimSuffix(s, suffix)`. -/
def TrimSuffix (s suffix : String) : String :=
  if HasSuffix s suffix then String.mk (s.data.take (s.data.length - suffix.data.length)) else s

/-- The list `unpluralizedSuffixes` of apimachinery's `meta` package. -/
def unpluralizedSuffixes : List String := ["endpoints"]

/-- Go `meta.UnsafeGuessKindToResource(kind)` of k8s.io/apimachinery (not part of the
repository), transcribed: the plural and the singular resource. `ToLower` is Go
`strings.ToLower`. -/
def UnsafeGuessKindToResource (ToLower : String → String) (kind : GroupVersionKind) :
    GroupVersionResource × GroupVersionResource :=
  let kindName := kind.Kind
  if kindName.length = 0 then
    ({ Group := "", Version := "", Resource := "" }, { Group := "", Version := "", Resource := "" })
  else
    let singularName := ToLower kindName
    let singular : GroupVersionResource :=
      { Group := kind.Group, Version := kind.Version, Resource := singularName }
    if unpluralizedSuffixes.any (fun skip => HasSuffix singularName skip) then
      (singular, singular)
    else if singularName.data.getLast? = some 's' then
      ({ Group := kind.Group, Version := kind.Version, Resource := singularName ++ "es" }, singular)
    else if singularName.data.getLast? = some 'y' then
      ({ Group := kind.Group, Version := kind.Version,
         Resource := TrimSuffix singularName "y" ++ "ies" }, singular)
    else
      ({ Group := kind.Group, Version := kind.Version, Resource := singularName ++ "s" }, singular)

/-- Lower-casing of the ASCII letters of a string, the restriction of Go `strings.ToLower`
to ASCII text. -/
def asciiToLower (s : String) : String :=
  String.mk (s.data.map Char.toLower)

/-- Go `validateAndDefaultConfig(config)`: the returned error and the config after the
call. `ToLower` is Go `strings.ToLower`. -/
def validateAndDefaultConfig (ToLower : String → String) (config : Config) :
    Option Error × Config :=
  if config.Owner = "" then
    (some "missing or empty config flag: --owner", config)
  else if config.GroupName = "" then
    (some "missing or empty config flag: --group-name", config)
  else if config.GroupVersion = "" then
    (some "missing or empty config flag: --group-version", config)
  else if config.Kind = "" then
    (some "missing or empty config flag: --kind", config)
  else
    let config :=
      if config.Resource = "" then
        let gvr := (UnsafeGuessKindToResource ToLower
          { Group := config.GroupName, Version := config.GroupName, Kind := config.Kind }).1
        { config with Resource := gvr.Resource }
      else config
    if config.OperatorName = "" then
      (some "missing or empty config flag: --operator-name", config)
    else if config.GoVersion = "" then
      (some "missing or empty config flag: --go-version", config)
    else if config.GoModule = "" then
      (some "missing or empty config flag: --go-module", config)
    else if config.KubernetesVersion = "" then
      (some "missing or empty config flag: --kubernetes-version", config)
    else if config.ControllerRuntimeVersion = "" then
      (some "missing or empty config flag: --controller-runtime-version", config)
    else if config.Image = "" then
      (some "missing or empty config flag: --image", config)
    else
      (none, config)

/-- The ten fields that must not be empty, each with the name of its flag, in the order
Owner, GroupName, GroupVersion, Kind, OperatorName, GoVersion, GoModule, KubernetesVersion,
ControllerRuntimeVersion, Image. -/
def requiredFlags (config : Config) : List (String × String) :=
  [(config.Owner, "owner"), (config.GroupName, "group-name"),
   (config.GroupVersion, "group-version"), (config.Kind, "kind"),
   (config.OperatorName, "operator-name"), (config.GoVersion, "go-version"),
   (config.GoModule, "go-module"), (config.KubernetesVersion, "kubernetes-version"),
   (config.ControllerRuntimeVersion, "controller-runtime-version"), (config.Image, "image")]

/-- The flag of the first empty field among the ten required ones, if there is one. -/
def firstEmptyFlag (config : Config) : Option String :=
  ((requiredFlags config).find? (fun field => field.1 = "")).map Prod.snd

/-- Go `renderTemplate(name, tpl, data)`: the returned bytes (empty for nil) and the
returned error. -/
def renderTemplate {ResMap : Type} (ext : Externals ResMap) (name : String) (tpl : Bytes)
    (data : Data) : Bytes × Option Error :=
  match ((Template.New name).Option "missingkey=error").Parse ext tpl with
  | .error err => ("", some err)
  | .ok tmpl =>
    match ext.Execute tmpl data with
    | .error err => ("", some err)
    | .ok out => (out, none)

end scaffold

/-! ## The inventory reconciler -/

namespace reconciler

open component manifests

/-- The identity of an inventory item: (group, version, kind, namespace, name). -/
def itemIdentity (item : InventoryItem) : String × String × String × String × String :=
  (item.toTypeInfo.Group, item.toTypeInfo.Version, item.toTypeInfo.Kind,
    item.toNameInfo.Namespace, item.toNameInfo.Name)

/-- The identity of a decoded object: (group, version, kind, namespace, name). -/
def objectIdentity (o : ObjectMap) : String × String × String × String × String :=
  (o.Group, o.Version, o.Kind, o.Namespace, o.Name)

/-- Modelled from the spec: the "active" phases of an inventory item
(ScheduledForApplication/Creating/Updating/Ready); the reconciler is not among the given
sources. -/
def isActivePhase (phase : String) : Bool :=
  phase = PhaseScheduledForApplication ∨ phase = PhaseCreating ∨ phase = PhaseUpdating ∨
    phase = PhaseReady

/-- The digest of every desired object, `none` where the body cannot be hashed. -/
def digests (hash : String → Option String) (desired : List ObjectMap) :
    List (ObjectMap × Option String) :=
  desired.map (fun o => (o, hash o.Body))

/-- Modelled from the spec: the rule for an item already in the inventory (the reconciler is
not among the given sources). An item in an active phase whose identity is desired gets phase
Updating and the new digest when the digest differs, and is left as it is when the digest is
the same or the body cannot be hashed (a hash error is "fatal to that object's inventory
update only"); one whose identity is no longer desired gets phase ScheduledForDeletion; an
item in another phase is left as it is. `desired` pairs each desired object with its
digest. -/
def reconcileItem (desired : List (ObjectMap × Option String)) (item : InventoryItem) :
    InventoryItem :=
  if isActivePhase item.Phase then
    match desired.find? (fun d => objectIdentity d.1 = itemIdentity item) with
    | some (_, some digest) =>
      if digest ≠ item.Digest then { item with Phase := PhaseUpdating, Digest := digest }
      else item
    | some (_, none) => item
    | none => { item with Phase := PhaseScheduledForDeletion }
  else item

/-- Modelled from the spec: the item created for a desired object that has no active item
(the reconciler is not among the given sources): phase ScheduledForApplication, digest the
hash of the body. -/
def newItem (d : ObjectMap × String) : InventoryItem :=
  { toTypeInfo := { Group := d.1.Group, Version := d.1.Version, Kind := d.1.Kind },
    toNameInfo := { Namespace := d.1.Namespace, Name := d.1.Name },
    ManagedTypes := [],
    Digest := d.2,
    Phase := PhaseScheduledForApplication,
    Status := "" }

/-- Modelled from the spec: the items created in a pass, in the order of the generator
output: one for every desired object whose identity has no active item and whose body can be
hashed. -/
def createdItems (active : List (String × String × String × String × String))
    (desired : List (ObjectMap × Option String)) : List InventoryItem :=
  desired.filterMap (fun d =>
    if objectIdentity d.1 ∈ active then none else d.2.map (fun digest => newItem (d.1, digest)))

/-- Modelled from the spec: one pass of the inventory reconciler (not among the given
sources), "a pure function of (previous inventory, desired objects)" giving the next
inventory. An item that has reached the terminal phase Completed "is then purged from the
inventory". With D the desired identities and P the identities in the inventory with an active
phase: an item for D \ P is created; an item of D ∩ P is updated on a digest change; an item of
P \ D is marked ScheduledForDeletion. Items already present keep their position, new items
follow in the order of the generator output. Duplicate identities in the desired set are fatal
to the pass; a hash failure is fatal to the update of that object only. -/
def reconcile (hash : String → Option String) (inventory : List InventoryItem)
    (desired : List ObjectMap) : Except Error (List InventoryItem) :=
  if ¬ (desired.map objectIdentity).Nodup then
    .error "duplicate object identity"
  else
    let kept := inventory.filter (fun item => item.Phase ≠ PhaseCompleted)
    let active := (kept.filter (fun item => isActivePhase item.Phase)).map itemIdentity
    let ds := digests hash desired
    .ok (kept.map (reconcileItem ds) ++ createdItems active ds)

end reconciler

/-! ## Example inputs -/

namespace v1alpha1

/-- A component with both deployment overrides empty, used in the examples below. -/
def exampleComponent : HelmComponent :=
  { toTypeMeta := { Kind := "HelmComponent", APIVersion := "operator.kyma-project.io/v1alpha1" },
    toObjectMeta :=
      { Name := "my-chart", GenerateName := "", Namespace := "apps", UID := "u-1",
        ResourceVersion := "7", Generation := 3, Labels := [("team", "a")], Annotations := [],
        Finalizers := ["operator.kyma-project.io/finalizer"] },
    Spec := { toSpec := { Namespace := "", Name := "" } },
    Status := { toStatus :=
      { ObservedGeneration := -1, AppliedGeneration := 0, LastObservedAt := none,
        LastAppliedAt := none, Conditions := [], State := component.StateProcessing,
        Inventory := [] } } }

end v1alpha1

namespace scaffold

/-- The scaffold configuration after flag parsing with only `--kind`, `--operator-name` and
`--go-module` given on the command line. -/
def exampleConfig : Config :=
  { Owner := "SAP SE", GroupName := "operator.kyma-project.io", GroupVersion := "v1alpha1",
    Kind := "HelmComponent", Resource := "", OperatorName := "helm-operator",
    GoVersion := "1.19", GoModule := "example.io/helm-operator", Version := "latest",
    KubernetesVersion := "v0.26.1", ControllerRuntimeVersion := "v0.14.2",
    Image := "controller:latest" }

end scaffold

namespace manifests

/-- The template text of the examples: `foo: ` followed by the action referencing `.env`. -/
def exampleTemplateText : String := "foo: \x7b\x7b .env \x7d\x7d"

/-- The source tree of the examples: a kustomization with one templated config map and a
file that is not a template. -/
def exampleFS : FS where
  WalkDir := fun root =>
    if root = "deploy" then
      [{ path := "deploy", regular := false, err := none },
       { path := "deploy/README.md", regular := true, err := none },
       { path := "deploy/configmap.yaml", regular := true, err := none },
       { path := "deploy/kustomization.yaml", regular := true, err := none }]
    else [{ path := root, regular := false, err := some "file does not exist" }]
  ReadFile := fun path =>
    if path = "deploy/configmap.yaml" then .ok exampleTemplateText
    else if path = "deploy/kustomization.yaml" then .ok "resources: [configmap.yaml]"
    else if path = "deploy/README.md" then .ok "# demo"
    else .error "file does not exist"

/-- The actions of the examples: `fail` aborts the execution, everything else prints
nothing. -/
def exampleEvalAction (_t : Template) (src : String) (_data : Data) : Except Error String :=
  if src = "fail" then .error "template: error calling fail" else .ok ""

/-- The errors of the examples for a failing field chain; every field chain of the example
texts starts at byte 8 of line 1. -/
def exampleErrorf (t : Template) (node : Node) (msg : String) : Error :=
  let context :=
    match node with
    | .field ident => String.join (ident.map (fun name => "." ++ name))
    | .text s => s
    | .action src => src
  "template: " ++ t.Name ++ ":1:8: executing " ++ quote t.Name ++ " at <" ++ context ++ ">: " ++ msg

/-- A second template text: `foo: ` followed by the action referencing `.a.b`. -/
def exampleChainText : String := "foo: \x7b\x7b .a.b \x7d\x7d"

/-- The config map `demo` of the examples, with the given body. -/
def exampleConfigMap (body : String) : ObjectMap :=
  { Group := "", Version := "v1", Kind := "ConfigMap", Namespace := "apps", Name := "demo",
    Body := body }

/-- A second object of the examples. -/
def exampleSecret : ObjectMap :=
  { Group := "", Version := "v1", Kind := "Secret", Namespace := "apps", Name := "creds",
    Body := "data: {}" }

/-- The components of a path, split at the slashes. -/
def examplePathComponents : List Char → List Char → List String
  | [], current => [String.mk current.reverse]
  | c :: rest, current =>
    if c = '/' then String.mk current.reverse :: examplePathComponents rest []
    else examplePathComponents rest (c :: current)

/-- The components of a clean path; `.` has none. -/
def exampleComponents (path : String) : List String :=
  if path = "." then [] else examplePathComponents path.data []

/-- The relative path from the components of a base to those of a target: up from what is
left of the base, then down the rest of the target. -/
def exampleRelComponents : List String → List String → List String
  | b :: base, t :: target =>
    if b = t then exampleRelComponents base target
    else (b :: base).map (fun _ => "..") ++ t :: target
  | base, target => base.map (fun _ => "..") ++ target

/-- Go `filepath.Rel` on clean slash-separated paths. -/
def exampleRel (base path : String) : Except Error String :=
  if ("/".data.isPrefixOf base.data) ≠ ("/".data.isPrefixOf path.data) ∨
      ".." ∈ exampleComponents base then
    .error ("Rel: can't make " ++ path ++ " relative to " ++ base)
  else
    match exampleRelComponents (exampleComponents base) (exampleComponents path) with
    | [] => .ok "."
    | components => .ok (String.intercalate "/" components)

/-- The resource a composed file gives: the config map `demo` with the file's content as
body. -/
def exampleReadResource (path : String) (next : Accumulation) : Accumulation :=
  .read path (fun content =>
    match content with
    | none => .fail ("accumulating resources: " ++ path ++ ": no such file or directory")
    | some body => .append (exampleConfigMap body) next)

/-- The composer of the examples: it reads the kustomization file, then the resource files
the kustomization lists. -/
def exampleComposer : Composer (List ObjectMap) where
  accumulate := fun _ _ =>
    .read "kustomization.yaml" (fun kustomization =>
      match kustomization with
      | none => .fail "unable to find a kustomization file"
      | some content =>
        if content = "resources: [configmap.yaml]" then
          exampleReadResource "configmap.yaml" .done
        else if content = "resources: [configmap.yaml, copy.yaml]" then
          exampleReadResource "configmap.yaml" (exampleReadResource "copy.yaml" .done)
        else .done)
  IsClusterScoped := fun _ _ kind => kind = "Namespace" ∨ kind = "ClusterRole"
  idError := fun res =>
    "may not add resource with an already registered id: " ++ res.Kind ++ "." ++ res.Version ++
      "." ++ (if res.Group = "" then "[noGrp]" else res.Group) ++ "/" ++ res.Name ++ "." ++
      res.Namespace
  transform := fun _ m => .ok m

/-- The library functions of the examples. The composition is that of `exampleComposer`;
the decoder yields `documents`. -/
def exampleExternals (documents : YAMLToJSONDecoder) : Externals (List ObjectMap) where
  DirFS := fun _ => exampleFS
  Abs := fun path => .ok ("/" ++ path)
  Rel := exampleRel
  Parse := fun text =>
    if text = exampleTemplateText then .ok [Node.text "foo: ", Node.field ["env"]]
    else if text = exampleChainText then .ok [Node.text "foo: ", Node.field ["a", "b"]]
    else if text = "\x7b\x7b fail \x7d\x7d" then .ok [Node.action "fail"]
    else if text = "\x7b\x7b" then .error "template: unclosed action"
    else .ok [Node.text text]
  Execute := Template.Execute exampleEvalAction exampleErrorf
  WriteFileError := fun _ path _ =>
    if (exampleComponents path).getLast? ∈ [none, some "", some ".", some ".."] then
      some "illegal name in file creation"
    else none
  Run := exampleComposer.Run
  AsYaml := fun resmap => .ok (String.intercalate "---\n" (resmap.map (fun res => res.Body)))
  NewYAMLToJSONDecoder := fun _ => documents

/-- The generator of the examples: a kustomization file and one templated config map. -/
def exampleGenerator : KustomizeGenerator :=
  { kustomizer := MakeKustomizer
      { LoadRestrictions := LoadRestrictions.LoadRestrictionsNone,
        PluginConfig := DisabledPluginConfig },
    templates :=
      [{ Name := "configmap.yaml", option := MissingKey.zero,
         Tree := [Node.text "foo: ", Node.field ["env"]] },
       { Name := "kustomization.yaml", option := MissingKey.zero,
         Tree := [Node.text "resources: [configmap.yaml]"] }] }

/-- A generator whose second template calls `fail`. -/
def exampleFailingGenerator : KustomizeGenerator :=
  { exampleGenerator with
    templates :=
      [{ Name := "configmap.yaml", option := MissingKey.zero,
         Tree := [Node.text "foo: ", Node.field ["env"]] },
       { Name := "broken.yaml", option := MissingKey.zero, Tree := [Node.action "fail"] },
       { Name := "kustomization.yaml", option := MissingKey.zero,
         Tree := [Node.text "resources: [configmap.yaml]"] }] }

/-- The tree the example generator renders for the example parameters. -/
def exampleTree : FsInMemory :=
  { files := [("configmap.yaml", "foo: prod"),
      ("kustomization.yaml", "resources: [configmap.yaml]")] }

/-- The source tree of the examples with the config map template referencing `.a.b`. -/
def exampleChainFS : FS where
  WalkDir := exampleFS.WalkDir
  ReadFile := fun path =>
    if path = "deploy/configmap.yaml" then .ok exampleChainText else exampleFS.ReadFile path

/-- The generator built from `exampleChainFS`. -/
def exampleChainGenerator : KustomizeGenerator :=
  { exampleGenerator with
    templates :=
      [{ Name := "configmap.yaml", option := MissingKey.zero,
         Tree := [Node.text "foo: ", Node.field ["a", "b"]] },
       { Name := "kustomization.yaml", option := MissingKey.zero,
         Tree := [Node.text "resources: [configmap.yaml]"] }] }

/-- A generator whose kustomization lists two files that render the same config map. -/
def exampleDuplicateGenerator : KustomizeGenerator :=
  { exampleGenerator with
    templates :=
      [{ Name := "configmap.yaml", option := MissingKey.zero,
         Tree := [Node.text "foo: ", Node.field ["env"]] },
       { Name := "copy.yaml", option := MissingKey.zero,
         Tree := [Node.text "foo: ", Node.field ["env"]] },
       { Name := "kustomization.yaml", option := MissingKey.zero,
         Tree := [Node.text "resources: [configmap.yaml, copy.yaml]"] }] }

/-- The tree the duplicate generator renders for the example parameters. -/
def exampleDuplicateTree : FsInMemory :=
  { files := [("configmap.yaml", "foo: prod"), ("copy.yaml", "foo: prod"),
      ("kustomization.yaml", "resources: [configmap.yaml, copy.yaml]")] }

/-- The parameters `env: prod` of the examples. -/
def exampleParameters : Unstructurable :=
  { ToUnstructured := [("env", Value.string "prod")] }

end manifests

namespace reconciler

open component manifests

/-- The digest function of the examples; the body `unserializable` cannot be hashed. -/
def exampleHash (body : String) : Option String :=
  if body = "unserializable" then none else some ("sha256:" ++ body)

/-- A third object of the examples, whose body cannot be hashed. -/
def exampleUnhashable : ObjectMap :=
  { Group := "apps", Version := "v1", Kind := "Deployment", Namespace := "apps", Name := "web",
    Body := "unserializable" }

/-- The inventory item of an object deleted earlier, in the given phase. -/
def exampleItemC (phase : String) : InventoryItem :=
  { toTypeInfo := { Group := "", Version := "v1", Kind := "Service" },
    toNameInfo := { Namespace := "apps", Name := "old" },
    ManagedTypes := [], Digest := "sha256:spec: {}", Phase := phase, Status := "" }

/-- The inventory item of the example config map (object A) in the given phase. -/
def exampleItemA (phase : String) : InventoryItem :=
  { toTypeInfo := { Group := "", Version := "v1", Kind := "ConfigMap" },
    toNameInfo := { Namespace := "apps", Name := "demo" },
    ManagedTypes := [], Digest := "sha256:foo: prod", Phase := phase, Status := "" }

/-- The inventory item of the example secret (object B) in the given phase. -/
def exampleItemB (phase : String) : InventoryItem :=
  { toTypeInfo := { Group := "", Version := "v1", Kind := "Secret" },
    toNameInfo := { Namespace := "apps", Name := "creds" },
    ManagedTypes := [], Digest := "sha256:data: {}", Phase := phase, Status := "" }

end reconciler

/-! ## Theorems: the HelmComponent accessors and the post-read hook -/

namespace v1alpha1

/-- C8: for every HelmComponent `c`, `GetDeploymentNamespace` returns `c.Spec.Namespace` when
it is non-empty and the metadata namespace otherwise, `GetDeploymentName` returns
`c.Spec.Name` when it is non-empty and the metadata name otherwise, and neither call
changes `c`. -/
theorem HelmComponent_deployment_accessors (c : HelmComponent) :
    (c.Spec.toSpec.Namespace ≠ "" → c.GetDeploymentNamespace.1 = c.Spec.toSpec.Namespace) ∧
    (c.Spec.toSpec.Namespace = "" → c.GetDeploymentNamespace.1 = c.toObjectMeta.Namespace) ∧
    (c.Spec.toSpec.Name ≠ "" → c.GetDeploymentName.1 = c.Spec.toSpec.Name) ∧
    (c.Spec.toSpec.Name = "" → c.GetDeploymentName.1 = c.toObjectMeta.Name) ∧
    c.GetDeploymentNamespace.2 = c ∧ c.GetDeploymentName.2 = c := by
  unfold HelmComponent.GetDeploymentNamespace HelmComponent.GetDeploymentName
  refine ⟨?_, ?_, ?_, ?_, ?_, ?_⟩
  · intro h; simp [h]
  · intro h; simp [h]
  · intro h; simp [h]
  · intro h; simp [h]
  · split <;> rfl
  · split <;> rfl

/-- C8 at a component without overrides, and at one whose spec overrides the namespace. -/
theorem HelmComponent_deployment_accessors_witness :
    exampleComponent.GetDeploymentNamespace.1 = "apps" ∧
    exampleComponent.GetDeploymentName.1 = "my-chart" ∧
    (exampleComponent.setSpecNamespace "prod").GetDeploymentNamespace.1 = "prod" ∧
    (exampleComponent.setSpecNamespace "prod").GetDeploymentNamespace.2 =
      exampleComponent.setSpecNamespace "prod" := by
  have h := HelmComponent_deployment_accessors exampleComponent
  have h' := HelmComponent_deployment_accessors (exampleComponent.setSpecNamespace "prod")
  exact ⟨h.2.1 (by decide), h.2.2.2.1 (by decide), h'.1 (by decide), h'.2.2.2.2.1⟩

/-- C9: for every HelmComponent `c`, `PostReadHook` returns no error; afterwards
`c.Spec.Namespace` is its previous value if that was non-empty and the metadata namespace
otherwise, `c.Spec.Name` is its previous value if that was non-empty and the metadata name
otherwise, and the type metadata, the object metadata and the status are unchanged (the spec
has no other field). -/
theorem PostReadHook_defaults {Context Client : Type} (ctx : Context) (client : Client)
    (c : HelmComponent) :
    (PostReadHook ctx client c).1 = none ∧
    ((PostReadHook ctx client c).2.Spec.toSpec.Namespace =
      if c.Spec.toSpec.Namespace ≠ "" then c.Spec.toSpec.Namespace
      else c.toObjectMeta.Namespace) ∧
    ((PostReadHook ctx client c).2.Spec.toSpec.Name =
      if c.Spec.toSpec.Name ≠ "" then c.Spec.toSpec.Name else c.toObjectMeta.Name) ∧
    (PostReadHook ctx client c).2.toTypeMeta = c.toTypeMeta ∧
    (PostReadHook ctx client c).2.toObjectMeta = c.toObjectMeta ∧
    (PostReadHook ctx client c).2.Status = c.Status := by
  unfold PostReadHook
  by_cases h1 : c.Spec.toSpec.Namespace = "" <;> by_cases h2 : c.Spec.toSpec.Name = "" <;>
    simp [h1, h2, HelmComponent.setSpecNamespace, HelmComponent.setSpecName]

/-- C9 at a component without overrides: both fields are defaulted from the metadata. -/
theorem PostReadHook_defaults_witness :
    (PostReadHook () () exampleComponent).1 = none ∧
    (PostReadHook () () exampleComponent).2.Spec.toSpec.Namespace = "apps" ∧
    (PostReadHook () () exampleComponent).2.Spec.toSpec.Name = "my-chart" ∧
    (PostReadHook () () exampleComponent).2.toObjectMeta = exampleComponent.toObjectMeta ∧
    (PostReadHook () () exampleComponent).2.Status = exampleComponent.Status := by
  have h := PostReadHook_defaults () () exampleComponent
  refine ⟨h.1, ?_, ?_, h.2.2.2.2.1, h.2.2.2.2.2⟩
  · rw [h.2.1]; decide
  · rw [h.2.2.1]; decide

end v1alpha1

/-! ## Theorems: the scaffold configuration -/

namespace scaffold

open manifests

/-- The plural resource guessed for a kind does not depend on the group or the version. -/
theorem UnsafeGuessKindToResource_resource (ToLower : String → String)
    (group version kind : String) (hk : kind ≠ "") :
    (UnsafeGuessKindToResource ToLower { Group := group, Version := version, Kind := kind }).1.Resource =
      if HasSuffix (ToLower kind) "endpoints" then ToLower kind
      else if (ToLower kind).data.getLast? = some 's' then ToLower kind ++ "es"
      else if (ToLower kind).data.getLast? = some 'y' then TrimSuffix (ToLower kind) "y" ++ "ies"
      else ToLower kind ++ "s" := by
  have hlen : kind.length ≠ 0 := by
    intro h
    apply hk
    cases kind with
    | mk data =>
      have : data = [] := List.length_eq_zero.mp h
      subst this
      rfl
  simp only [UnsafeGuessKindToResource, hlen, unpluralizedSuffixes, List.any_cons, List.any_nil,
    Bool.or_false, if_false]
  split_ifs <;> rfl

/-- The steps of `validateAndDefaultConfig` up to the defaulting of the resource. -/
theorem validateAndDefaultConfig_resource_eq (ToLower : String → String) (config : Config)
    (hO : config.Owner ≠ "") (hG : config.GroupName ≠ "") (hV : config.GroupVersion ≠ "")
    (hK : config.Kind ≠ "") :
    (validateAndDefaultConfig ToLower config).2.Resource =
      if config.Resource = "" then
        (UnsafeGuessKindToResource ToLower
          { Group := config.GroupName, Version := config.GroupName, Kind := config.Kind }).1.Resource
      else config.Resource := by
  simp only [validateAndDefaultConfig, hO, hG, hV, hK, if_false]
  by_cases hR : config.Resource = ""
  · simp only [hR, if_true]
    split_ifs <;> rfl
  · simp only [hR, if_false]
    split_ifs <;> rfl

/-- A config whose Resource is given comes back unchanged, whatever the error. -/
theorem validateAndDefaultConfig_keeps (ToLower : String → String) (c : Config)
    (hc : c.Resource ≠ "") : (validateAndDefaultConfig ToLower c).2 = c := by
  by_cases hO : c.Owner = ""
  · simp only [validateAndDefaultConfig, hO, if_true]
  by_cases hG : c.GroupName = ""
  · simp only [validateAndDefaultConfig, hO, hG, if_true, if_false]
  by_cases hV : c.GroupVersion = ""
  · simp only [validateAndDefaultConfig, hO, hG, hV, if_true, if_false]
  by_cases hK : c.Kind = ""
  · simp only [validateAndDefaultConfig, hO, hG, hV, hK, if_true, if_false]
  simp only [validateAndDefaultConfig, hO, hG, hV, hK, hc, if_false]
  split_ifs <;> rfl

/-- C10: for every config with an empty Resource and non-empty Owner, GroupName, GroupVersion
and Kind, `validateAndDefaultConfig` sets Resource to the pluralized, lower-cased Kind (the
lower-cased kind itself when it ends in "endpoints", with "es" appended after a final "s",
with a final "y" replaced by "ies", with "s" appended otherwise); a second such config with
the same Kind gets the same Resource whatever its group name and group version; and every
config whose Resource is non-empty keeps that Resource. -/
theorem validateAndDefaultConfig_defaults_resource (ToLower : String → String)
    (config config' : Config)
    (hO : config.Owner ≠ "") (hG : config.GroupName ≠ "") (hV : config.GroupVersion ≠ "")
    (hK : config.Kind ≠ "") (hR : config.Resource = "")
    (hO' : config'.Owner ≠ "") (hG' : config'.GroupName ≠ "") (hV' : config'.GroupVersion ≠ "")
    (hR' : config'.Resource = "") (hKind : config'.Kind = config.Kind) :
    ((validateAndDefaultConfig ToLower config).2.Resource =
      if HasSuffix (ToLower config.Kind) "endpoints" then ToLower config.Kind
      else if (ToLower config.Kind).data.getLast? = some 's' then ToLower config.Kind ++ "es"
      else if (ToLower config.Kind).data.getLast? = some 'y' then
        TrimSuffix (ToLower config.Kind) "y" ++ "ies"
      else ToLower config.Kind ++ "s") ∧
    (validateAndDefaultConfig ToLower config').2.Resource =
      (validateAndDefaultConfig ToLower config).2.Resource ∧
    ∀ c : Config, c.Resource ≠ "" → (validateAndDefaultConfig ToLower c).2.Resource = c.Resource := by
  have hK' : config'.Kind ≠ "" := by rw [hKind]; exact hK
  have h := validateAndDefaultConfig_resource_eq ToLower config hO hG hV hK
  have h' := validateAndDefaultConfig_resource_eq ToLower config' hO' hG' hV' hK'
  rw [if_pos hR, UnsafeGuessKindToResource_resource ToLower _ _ _ hK] at h
  rw [if_pos hR', UnsafeGuessKindToResource_resource ToLower _ _ _ hK', hKind] at h'
  refine ⟨h, h'.trans h.symm, ?_⟩
  intro c hc
  rw [validateAndDefaultConfig_keeps ToLower c hc]

/-- C10 at the kind "HelmComponent": the resource becomes "helmcomponents", also under
another group name and group version, and a given resource "helmcharts" is kept. -/
theorem validateAndDefaultConfig_defaults_resource_witness :
    (validateAndDefaultConfig asciiToLower exampleConfig).2.Resource = "helmcomponents" ∧
    (validateAndDefaultConfig asciiToLower
      { exampleConfig with GroupName := "example.io", GroupVersion := "v2" }).2.Resource =
      "helmcomponents" ∧
    (validateAndDefaultConfig asciiToLower
      { exampleConfig with Resource := "helmcharts" }).2.Resource = "helmcharts" := by
  have h := validateAndDefaultConfig_defaults_resource asciiToLower exampleConfig
    { exampleConfig with GroupName := "example.io", GroupVersion := "v2" }
    (by decide) (by decide) (by decide) (by decide) (by decide)
    (by decide) (by decide) (by decide) (by decide) (by decide)
  have h1 : (validateAndDefaultConfig asciiToLower exampleConfig).2.Resource = "helmcomponents" := by
    rw [h.1]; decide
  exact ⟨h1, h.2.1.trans h1, h.2.2 { exampleConfig with Resource := "helmcharts" } (by decide)⟩

end scaffold

/-! ## Theorems: the generator -/

namespace manifests

open KustomizeGenerator

/-- The decoding loop on documents that all decode: the objects collected so far followed by
the decoded objects, and no error. -/
theorem decodeLoop_of_decodable (decoder : YAMLToJSONDecoder) (objects : List Unstructured)
    (h : ∀ d ∈ decoder, d.isMalformed = false) :
    decodeLoop decoder objects = (objects ++ decoder.filterMap Document.decoded, none) := by
  induction decoder generalizing objects with
  | nil => simp [decodeLoop]
  | cons d rest ih =>
    have hrest : ∀ d ∈ rest, d.isMalformed = false := fun x hx => h x (List.mem_cons_of_mem _ hx)
    cases d with
    | object m =>
      rw [decodeLoop, ih _ hrest]
      simp [Document.decoded]
    | empty =>
      rw [decodeLoop, ih _ hrest]
      simp [Document.decoded]
    | malformed err =>
      have := h (.malformed err) (List.mem_cons_self _ _)
      simp [Document.isMalformed] at this

/-- The decoding loop at the first malformed document: a nil list and the error of that
document, whatever was collected before. -/
theorem decodeLoop_of_malformed (pre post : YAMLToJSONDecoder) (err : Error)
    (objects : List Unstructured) (h : ∀ d ∈ pre, d.isMalformed = false) :
    decodeLoop (pre ++ .malformed err :: post) objects = ([], some err) := by
  induction pre generalizing objects with
  | nil => simp [decodeLoop]
  | cons d rest ih =>
    have hrest : ∀ d ∈ rest, d.isMalformed = false := fun x hx => h x (List.mem_cons_of_mem _ hx)
    cases d with
    | object m => rw [List.cons_append, decodeLoop, ih _ hrest]
    | empty => rw [List.cons_append, decodeLoop, ih _ hrest]
    | malformed e =>
      have := h (.malformed e) (List.mem_cons_self _ _)
      simp [Document.isMalformed] at this

/-- The decoding loop returns a nil list whenever it returns an error. -/
theorem decodeLoop_error_nil (decoder : YAMLToJSONDecoder) (objects : List Unstructured) :
    (decodeLoop decoder objects).2 = none ∨ (decodeLoop decoder objects).1 = [] := by
  induction decoder generalizing objects with
  | nil => left; simp [decodeLoop]
  | cons d rest ih =>
    cases d with
    | object m => rw [decodeLoop]; exact ih _
    | empty => rw [decodeLoop]; exact ih _
    | malformed err => right; simp [decodeLoop]

/-- Composition and decoding return a nil list whenever they return an error. -/
theorem compose_error_nil {ResMap : Type} (ext : Externals ResMap) (g : KustomizeGenerator)
    (fsys : FsInMemory) (objects : List Unstructured) :
    (g.compose ext fsys objects).2 = none ∨ (g.compose ext fsys objects).1 = [] := by
  cases hrun : ext.Run g.kustomizer fsys "/" with
  | error err => right; simp only [compose, hrun]
  | ok resmap =>
    cases hyaml : ext.AsYaml resmap with
    | error err => right; simp only [compose, hrun, hyaml]
    | ok raw =>
      simp only [compose, hrun, hyaml]
      exact decodeLoop_error_nil _ _

/-- The rendering loop over two runs of templates one after the other. -/
theorem renderLoop_append {ResMap : Type} (ext : Externals ResMap) (data : Data)
    (pre rest : List Template) (fsys : FsInMemory) :
    renderLoop ext data (pre ++ rest) fsys =
      match renderLoop ext data pre fsys with
      | .error err => .error err
      | .ok fsys => renderLoop ext data rest fsys := by
  induction pre generalizing fsys with
  | nil => simp [renderLoop]
  | cons t ts ih =>
    cases hexec : ext.Execute t data with
    | error err => simp only [List.cons_append, renderLoop, hexec]
    | ok buf =>
      cases hwrite : fsys.WriteFile ext t.Name buf with
      | error err => simp only [List.cons_append, renderLoop, hexec, hwrite]
      | ok fsys =>
        simp only [List.cons_append, renderLoop, hexec, hwrite]
        exact ih fsys

/-- C1: `Generate` returns an object list with no error or a nil list with the error. The
list is nil and the error is that of the failing stage when a template fails to execute, when
a rendered artifact cannot be written to the tree (in both cases also after earlier templates
were rendered and written), when the overlay composition fails, when its result cannot be
serialised, and when a document fails to decode (also after earlier documents were decoded). -/
theorem Generate_failure_returns_nil {ResMap : Type} (ext : Externals ResMap)
    (g : KustomizeGenerator) (ns name : String) (parameters : Unstructurable) :
    ((g.Generate ext ns name parameters).2 = none ∨
      (g.Generate ext ns name parameters).1 = []) ∧
    (∀ pre t post fsys err, g.templates = pre ++ t :: post →
      renderLoop ext parameters.ToUnstructured pre MakeFsInMemory = .ok fsys →
      ext.Execute t parameters.ToUnstructured = .error err →
      g.Generate ext ns name parameters = ([], some err)) ∧
    (∀ pre t post fsys buf err, g.templates = pre ++ t :: post →
      renderLoop ext parameters.ToUnstructured pre MakeFsInMemory = .ok fsys →
      ext.Execute t parameters.ToUnstructured = .ok buf →
      fsys.WriteFile ext t.Name buf = .error err →
      g.Generate ext ns name parameters = ([], some err)) ∧
    (∀ fsys err,
      renderLoop ext parameters.ToUnstructured g.templates MakeFsInMemory = .ok fsys →
      ext.Run g.kustomizer fsys "/" = .error err →
      g.Generate ext ns name parameters = ([], some err)) ∧
    (∀ fsys resmap err,
      renderLoop ext parameters.ToUnstructured g.templates MakeFsInMemory = .ok fsys →
      ext.Run g.kustomizer fsys "/" = .ok resmap →
      ext.AsYaml resmap = .error err →
      g.Generate ext ns name parameters = ([], some err)) ∧
    (∀ fsys resmap raw pre err post,
      renderLoop ext parameters.ToUnstructured g.templates MakeFsInMemory = .ok fsys →
      ext.Run g.kustomizer fsys "/" = .ok resmap →
      ext.AsYaml resmap = .ok raw →
      ext.NewYAMLToJSONDecoder raw = pre ++ .malformed err :: post →
      (∀ d ∈ pre, d.isMalformed = false) →
      g.Generate ext ns name parameters = ([], some err)) := by
  refine ⟨?_, ?_, ?_, ?_, ?_, ?_⟩
  · cases hrender : renderLoop ext parameters.ToUnstructured g.templates MakeFsInMemory with
    | error err => right; simp only [Generate, hrender]
    | ok fsys =>
      simp only [Generate, hrender]
      exact compose_error_nil ext g fsys []
  · intro pre t post fsys err hg hpre hexec
    simp only [Generate, hg, renderLoop_append, hpre, renderLoop, hexec]
  · intro pre t post fsys buf err hg hpre hexec hwrite
    simp only [Generate, hg, renderLoop_append, hpre, renderLoop, hexec, hwrite]
  · intro fsys err hrender hrun
    simp only [Generate, hrender, compose, hrun]
  · intro fsys resmap err hrender hrun hyaml
    simp only [Generate, hrender, compose, hrun, hyaml]
  · intro fsys resmap raw pre err post hrender hrun hyaml hdec hpre
    simp only [Generate, hrender, compose, hrun, hyaml, hdec]
    exact decodeLoop_of_malformed pre post err [] hpre

/-- C1 on the example generator: a malformed second document gives a nil list although the
first document was decoded, and a failing second template gives a nil list although the first
template was rendered. -/
theorem Generate_failure_returns_nil_witness :
    exampleGenerator.Generate
        (exampleExternals [.object (exampleConfigMap "foo: prod"), .malformed "yaml: line 2: did not find expected key"])
        "apps" "demo" exampleParameters = ([], some "yaml: line 2: did not find expected key") ∧
    exampleFailingGenerator.Generate (exampleExternals []) "apps" "demo" exampleParameters =
      ([], some "template: error calling fail") :=
  ⟨(Generate_failure_returns_nil
        (exampleExternals [.object (exampleConfigMap "foo: prod"), .malformed "yaml: line 2: did not find expected key"])
        exampleGenerator "apps" "demo" exampleParameters).2.2.2.2.2
      exampleTree [exampleConfigMap "foo: prod"] "foo: prod"
      [.object (exampleConfigMap "foo: prod")] "yaml: line 2: did not find expected key" []
      (by decide) (by decide) (by decide) (by decide) (by decide),
   (Generate_failure_returns_nil (exampleExternals []) exampleFailingGenerator "apps" "demo"
        exampleParameters).2.1
      [{ Name := "configmap.yaml", option := MissingKey.zero,
         Tree := [Node.text "foo: ", Node.field ["env"]] }]
      { Name := "broken.yaml", option := MissingKey.zero, Tree := [Node.action "fail"] }
      [{ Name := "kustomization.yaml", option := MissingKey.zero,
         Tree := [Node.text "resources: [configmap.yaml]"] }]
      { files := [("configmap.yaml", "foo: prod")] }
      "template: error calling fail" (by decide) (by decide) (by decide)⟩

/-- C2: when the composed output decodes without error, `Generate` returns no error and
exactly the documents that decode to a non-nil object, in the order of the output; an empty
document adds no object and the documents after it are decoded all the same. -/
theorem Generate_returns_decoded_documents {ResMap : Type} (ext : Externals ResMap)
    (g : KustomizeGenerator) (ns name : String) (parameters : Unstructurable)
    (fsys : FsInMemory) (resmap : ResMap) (raw : Bytes)
    (hrender : renderLoop ext parameters.ToUnstructured g.templates MakeFsInMemory = .ok fsys)
    (hrun : ext.Run g.kustomizer fsys "/" = .ok resmap)
    (hyaml : ext.AsYaml resmap = .ok raw)
    (hdec : ∀ d ∈ ext.NewYAMLToJSONDecoder raw, d.isMalformed = false) :
    g.Generate ext ns name parameters =
      ((ext.NewYAMLToJSONDecoder raw).filterMap Document.decoded, none) ∧
    ∀ pre post, ext.NewYAMLToJSONDecoder raw = pre ++ Document.empty :: post →
      (g.Generate ext ns name parameters).1 =
        pre.filterMap Document.decoded ++ post.filterMap Document.decoded := by
  have h : g.Generate ext ns name parameters =
      ((ext.NewYAMLToJSONDecoder raw).filterMap Document.decoded, none) := by
    simp only [Generate, hrender, compose, hrun, hyaml]
    rw [decodeLoop_of_decodable _ _ hdec, List.nil_append]
  refine ⟨h, ?_⟩
  intro pre post hdocs
  rw [h, hdocs]
  simp [Document.decoded]

/-- C2 on the example generator: of the documents config map, empty, secret the two objects
are returned, in this order. -/
theorem Generate_returns_decoded_documents_witness :
    exampleGenerator.Generate
        (exampleExternals [.object (exampleConfigMap "foo: prod"), .empty, .object exampleSecret])
        "apps" "demo" exampleParameters =
      ([{ Object := some (exampleConfigMap "foo: prod") }, { Object := some exampleSecret }], none) :=
  (Generate_returns_decoded_documents
    (exampleExternals [.object (exampleConfigMap "foo: prod"), .empty, .object exampleSecret])
    exampleGenerator "apps" "demo" exampleParameters exampleTree
    [exampleConfigMap "foo: prod"] "foo: prod"
    (by decide) (by decide) (by decide) (by decide)).1

/-- Two resources with the same identity have equal ids for the composer. -/
theorem ResIdEquals_of_identity (IsClusterScoped : String → String → String → Bool)
    (a b : ObjectMap) (h : a.identity = b.identity) : ResIdEquals IsClusterScoped a b = true := by
  simp only [ObjectMap.identity, Prod.mk.injEq] at h
  obtain ⟨hg, hv, hk, hn, hname⟩ := h
  simp [ResIdEquals, EffectiveNamespace, hg, hv, hk, hn, hname]

/-- An accumulation that hands to `Append` a resource with the identity of one already in
the map, or two resources with the same identity, fails with the error for an already
registered id. -/
theorem Accumulation.run_rejects_duplicate {ResMap : Type} (c : Composer ResMap)
    (readFile : String → Option Bytes) (acc : Accumulation) (m : List ObjectMap)
    (h : (∃ x ∈ m, ∃ y ∈ acc.appended readFile, x.identity = y.identity) ∨
      ∃ a b, List.Sublist [a, b] (acc.appended readFile) ∧ a.identity = b.identity) :
    ∃ r ∈ acc.appended readFile, acc.run c readFile m = .error (c.idError r) := by
  induction acc generalizing m with
  | done =>
    rcases h with ⟨_, _, y, hy, _⟩ | ⟨a, b, hsub, _⟩
    · simp [Accumulation.appended] at hy
    · simp [Accumulation.appended] at hsub
  | fail err =>
    rcases h with ⟨_, _, y, hy, _⟩ | ⟨a, b, hsub, _⟩
    · simp [Accumulation.appended] at hy
    · simp [Accumulation.appended] at hsub
  | read path next ih =>
    simp only [Accumulation.appended, Accumulation.run] at h ⊢
    exact ih (readFile path) m h
  | append res next ih =>
    simp only [Accumulation.appended, Accumulation.run] at h ⊢
    by_cases hreg : m.any (fun r => ResIdEquals c.IsClusterScoped res r) = true
    · exact ⟨res, List.mem_cons_self _ _, by simp only [Composer.Append, hreg, if_true]⟩
    · simp only [Composer.Append, hreg, Bool.false_eq_true, if_false]
      have hnext : (∃ x ∈ m ++ [res], ∃ y ∈ next.appended readFile, x.identity = y.identity) ∨
          ∃ a b, List.Sublist [a, b] (next.appended readFile) ∧ a.identity = b.identity := by
        rcases h with ⟨x, hx, y, hy, hxy⟩ | ⟨a, b, hsub, hab⟩
        · rcases List.mem_cons.mp hy with rfl | hy'
          · exfalso
            apply hreg
            rw [List.any_eq_true]
            exact ⟨x, hx, ResIdEquals_of_identity _ _ _ hxy.symm⟩
          · exact Or.inl ⟨x, List.mem_append_left _ hx, y, hy', hxy⟩
        · cases hsub with
          | cons _ hsub' => exact Or.inr ⟨a, b, hsub', hab⟩
          | cons₂ _ hsub' =>
            exact Or.inl ⟨_, List.mem_append_right _ (List.mem_singleton_self _), b,
              List.singleton_sublist.mp hsub', hab⟩
      obtain ⟨r, hr, hrun⟩ := ih (m ++ [res]) hnext
      exact ⟨r, List.mem_cons_of_mem _ hr, hrun⟩

/-- C3: with the overlay composition that of kustomize, which refuses a resource whose id is
already registered, an input whose rendered tree makes the composer accumulate two resources
with identical (group, version, kind, namespace, name) makes `Generate` return the composer's
error for an already registered id and a nil object list: not a list with both documents, a
merge of them or the last one. -/
theorem Generate_rejects_duplicate_identity {ResMap : Type} (ext : Externals ResMap)
    (c : Composer ResMap) (g : KustomizeGenerator) (ns name : String)
    (parameters : Unstructurable) (fsys : FsInMemory) (a b : ObjectMap)
    (hRun : ∀ kustomizer fsys path, ext.Run kustomizer fsys path = c.Run kustomizer fsys path)
    (hrender : renderLoop ext parameters.ToUnstructured g.templates MakeFsInMemory = .ok fsys)
    (hdup : List.Sublist [a, b] ((c.accumulate g.kustomizer "/").appended fsys.ReadFile))
    (hid : a.identity = b.identity) :
    ∃ r ∈ (c.accumulate g.kustomizer "/").appended fsys.ReadFile,
      g.Generate ext ns name parameters = ([], some (c.idError r)) := by
  obtain ⟨r, hr, hrun⟩ := Accumulation.run_rejects_duplicate c fsys.ReadFile
    (c.accumulate g.kustomizer "/") [] (Or.inr ⟨a, b, hdup, hid⟩)
  refine ⟨r, hr, ?_⟩
  simp only [Generate, hrender, compose, hRun, Composer.Run, Composer.RunWith, hrun]

/-- C3 on the example generator whose kustomization lists two files rendering the same config
map: the composer refuses the second one and `Generate` returns a nil list and that error. -/
theorem Generate_rejects_duplicate_identity_witness :
    renderLoop (exampleExternals []) exampleParameters.ToUnstructured
      exampleDuplicateGenerator.templates MakeFsInMemory = .ok exampleDuplicateTree ∧
    (∃ r ∈ (exampleComposer.accumulate exampleDuplicateGenerator.kustomizer "/").appended
        exampleDuplicateTree.ReadFile,
      exampleDuplicateGenerator.Generate (exampleExternals []) "apps" "demo" exampleParameters =
        ([], some (exampleComposer.idError r))) ∧
    exampleDuplicateGenerator.Generate (exampleExternals []) "apps" "demo" exampleParameters =
      ([], some (exampleComposer.idError (exampleConfigMap "foo: prod"))) :=
  ⟨by decide,
   Generate_rejects_duplicate_identity (exampleExternals []) exampleComposer
     exampleDuplicateGenerator "apps" "demo" exampleParameters exampleDuplicateTree
     (exampleConfigMap "foo: prod") (exampleConfigMap "foo: prod")
     (fun _ _ _ => rfl) (by decide) (by decide) (by decide),
   by decide⟩

/-- C7 refuted: the same malformed document is the first document of one composed output
and the second document of another; `Generate` returns the same error for both, so no
position can be read from the error it returns. -/
theorem Generate_decode_error_position_counterexample :
    ¬ ∃ position : Error → Nat,
      ∀ docs ∈ [[Document.malformed "yaml: did not find expected key"],
          [Document.object (exampleConfigMap "foo: prod"),
            Document.malformed "yaml: did not find expected key"]],
        ∀ err, (exampleGenerator.Generate (exampleExternals docs) "apps" "demo"
            exampleParameters).2 = some err →
          firstMalformedIndex docs = some (position err) := by
  rintro ⟨position, h⟩
  have h0 := h [Document.malformed "yaml: did not find expected key"] (by simp)
    "yaml: did not find expected key" (by decide)
  have h1 := h [Document.object (exampleConfigMap "foo: prod"),
      Document.malformed "yaml: did not find expected key"] (by simp)
    "yaml: did not find expected key" (by decide)
  have e0 : firstMalformedIndex [Document.malformed "yaml: did not find expected key"] = some 0 := by
    decide
  have e1 : firstMalformedIndex [Document.object (exampleConfigMap "foo: prod"),
      Document.malformed "yaml: did not find expected key"] = some 1 := by
    decide
  rw [e0] at h0
  rw [e1] at h1
  have := h0.trans h1.symm
  simp at this

/-- C7 as amended: whenever a document of the composed output fails to decode, `Generate`
returns a nil list and the very error the decoder returned for the first such document,
with nothing added: a second composed output whose first malformed document fails with the
same decoder error, at whatever position, makes `Generate` return the same result. -/
theorem Generate_returns_decoder_error {ResMap : Type} (ext ext' : Externals ResMap)
    (g g' : KustomizeGenerator) (ns name ns' name' : String)
    (parameters parameters' : Unstructurable)
    (fsys fsys' : FsInMemory) (resmap resmap' : ResMap) (raw raw' : Bytes)
    (pre post pre' post' : List Document) (err : Error)
    (hrender : renderLoop ext parameters.ToUnstructured g.templates MakeFsInMemory = .ok fsys)
    (hrun : ext.Run g.kustomizer fsys "/" = .ok resmap)
    (hyaml : ext.AsYaml resmap = .ok raw)
    (hdocs : ext.NewYAMLToJSONDecoder raw = pre ++ Document.malformed err :: post)
    (hpre : ∀ d ∈ pre, d.isMalformed = false)
    (hrender' : renderLoop ext' parameters'.ToUnstructured g'.templates MakeFsInMemory = .ok fsys')
    (hrun' : ext'.Run g'.kustomizer fsys' "/" = .ok resmap')
    (hyaml' : ext'.AsYaml resmap' = .ok raw')
    (hdocs' : ext'.NewYAMLToJSONDecoder raw' = pre' ++ Document.malformed err :: post')
    (hpre' : ∀ d ∈ pre', d.isMalformed = false) :
    g.Generate ext ns name parameters = ([], some err) ∧
    g'.Generate ext' ns' name' parameters' = g.Generate ext ns name parameters := by
  have h : g.Generate ext ns name parameters = ([], some err) := by
    simp only [Generate, hrender, compose, hrun, hyaml, hdocs]
    exact decodeLoop_of_malformed pre post err [] hpre
  have h' : g'.Generate ext' ns' name' parameters' = ([], some err) := by
    simp only [Generate, hrender', compose, hrun', hyaml', hdocs']
    exact decodeLoop_of_malformed pre' post' err [] hpre'
  exact ⟨h, h'.trans h.symm⟩

/-- C7 as amended, on the example generator: the decoder's error comes back unchanged
whether the malformed document is the first or the second of the output. -/
theorem Generate_returns_decoder_error_witness :
    exampleGenerator.Generate
        (exampleExternals [Document.malformed "yaml: did not find expected key"])
        "apps" "demo" exampleParameters = ([], some "yaml: did not find expected key") ∧
    exampleGenerator.Generate
        (exampleExternals [Document.object (exampleConfigMap "foo: prod"),
          Document.malformed "yaml: did not find expected key"])
        "apps" "demo" exampleParameters =
      exampleGenerator.Generate
        (exampleExternals [Document.malformed "yaml: did not find expected key"])
        "apps" "demo" exampleParameters :=
  Generate_returns_decoder_error
    (exampleExternals [Document.malformed "yaml: did not find expected key"])
    (exampleExternals [Document.object (exampleConfigMap "foo: prod"),
      Document.malformed "yaml: did not find expected key"])
    exampleGenerator exampleGenerator "apps" "demo" "apps" "demo"
    exampleParameters exampleParameters exampleTree exampleTree
    [exampleConfigMap "foo: prod"] [exampleConfigMap "foo: prod"]
    "foo: prod" "foo: prod" [] [] [Document.object (exampleConfigMap "foo: prod")] []
    "yaml: did not find expected key"
    (by decide) (by decide) (by decide) (by decide) (by decide)
    (by decide) (by decide) (by decide) (by decide) (by decide)

/-- Writing under a path the tree does not hold adds the file at the end. -/
theorem FsInMemory.put_of_not_mem (files : List (String × Bytes)) (path : String) (data : Bytes)
    (h : path ∉ files.map Prod.fst) : FsInMemory.put files path data = files ++ [(path, data)] := by
  induction files with
  | nil => rfl
  | cons f rest ih =>
    obtain ⟨p, d⟩ := f
    have hp : ¬ p = path := fun e => h (by simp [e])
    have hrest : path ∉ rest.map Prod.fst := fun hm => h (by simp [hm])
    simp only [FsInMemory.put, hp, if_false, ih hrest, List.cons_append]

/-- The rendering loop adds to the tree one file per template, in order, under the
template's name and with the template's output, when the names are distinct and new. -/
theorem renderLoop_files {ResMap : Type} (ext : Externals ResMap) (data : Data)
    (ts : List Template) (fsys tree : FsInMemory)
    (h : renderLoop ext data ts fsys = .ok tree)
    (hnodup : (ts.map Template.Name).Nodup)
    (hnew : ∀ t ∈ ts, t.Name ∉ fsys.files.map Prod.fst) :
    ∃ added, tree.files = fsys.files ++ added ∧
      List.Forall₂ (fun f t => f.1 = t.Name ∧ ext.Execute t data = .ok f.2) added ts := by
  induction ts generalizing fsys with
  | nil =>
    simp only [renderLoop, Except.ok.injEq] at h
    exact ⟨[], by simp [h], List.Forall₂.nil⟩
  | cons t ts ih =>
    cases hexec : ext.Execute t data with
    | error err => simp [renderLoop, hexec] at h
    | ok buf =>
      cases hcheck : ext.WriteFileError fsys t.Name buf with
      | some err => simp [renderLoop, hexec, FsInMemory.WriteFile, hcheck] at h
      | none =>
        simp only [renderLoop, hexec, FsInMemory.WriteFile, hcheck] at h
        have hput := FsInMemory.put_of_not_mem fsys.files t.Name buf
          (hnew t (List.mem_cons_self _ _))
        rw [List.map_cons, List.nodup_cons] at hnodup
        have hnew' : ∀ t' ∈ ts,
            t'.Name ∉ (FsInMemory.mk (FsInMemory.put fsys.files t.Name buf)).files.map Prod.fst := by
          intro t' ht' hmem
          rw [hput, List.map_append, List.mem_append] at hmem
          rcases hmem with hmem | hmem
          · exact hnew t' (List.mem_cons_of_mem _ ht') hmem
          · simp only [List.map_cons, List.map_nil, List.mem_singleton] at hmem
            exact hnodup.1 (hmem ▸ List.mem_map_of_mem Template.Name ht')
        obtain ⟨added, hfiles, hall⟩ := ih _ h hnodup.2 hnew'
        refine ⟨(t.Name, buf) :: added, ?_, List.Forall₂.cons ⟨rfl, hexec⟩ hall⟩
        rw [hfiles, hput, List.append_assoc, List.singleton_append]

/-- Reading the tree of rendered artifacts: a path holds a content exactly when it is the
name of a template whose output is that content. -/
theorem readFile_rendered {ResMap : Type} (ext : Externals ResMap) (data : Data)
    (files : List (String × Bytes)) (ts : List Template)
    (h : List.Forall₂ (fun f t => f.1 = t.Name ∧ ext.Execute t data = .ok f.2) files ts)
    (hnodup : (ts.map Template.Name).Nodup) (path : String) (content : Bytes) :
    FsInMemory.ReadFile { files := files } path = some content ↔
      ∃ t ∈ ts, t.Name = path ∧ ext.Execute t data = .ok content := by
  induction h with
  | nil => simp [FsInMemory.ReadFile]
  | @cons f t files ts hft _ ih =>
    rw [List.map_cons, List.nodup_cons] at hnodup
    have ih := ih hnodup.2
    simp only [FsInMemory.ReadFile] at ih ⊢
    by_cases hp : f.1 = path
    · simp only [List.find?_cons, hp, decide_True, Option.map_some', Option.some.injEq]
      constructor
      · intro hc
        exact ⟨t, List.mem_cons_self _ _, hft.1.symm.trans hp, by rw [hft.2, hc]⟩
      · rintro ⟨t', ht', hname, hexec⟩
        rcases List.mem_cons.mp ht' with rfl | hmem
        · rw [hft.2] at hexec
          exact Except.ok.inj hexec
        · exfalso
          apply hnodup.1
          have : t.Name = t'.Name := by rw [hname, ← hp, hft.1]
          rw [this]
          exact List.mem_map_of_mem Template.Name hmem
    · simp only [List.find?_cons, hp, decide_False]
      rw [ih]
      constructor
      · rintro ⟨t', ht', hname, hexec⟩
        exact ⟨t', List.mem_cons_of_mem _ ht', hname, hexec⟩
      · rintro ⟨t', ht', hname, hexec⟩
        rcases List.mem_cons.mp ht' with rfl | hmem
        · exact absurd (hft.1.trans hname) hp
        · exact ⟨t', hmem, hname, hexec⟩

/-- The walk function either leaves the templates as they are or appends one template: the
entry is then a regular file with the template suffix, the template's name is the entry's path
relative to the kustomization path, and its option is `missingkey=zero`. -/
theorem walkFn_value {ResMap : Type} (ext : Externals ResMap) (fsys : FS)
    (kustomizationPath templateSuffix : String) (templates templates' : List Template)
    (e : WalkEntry)
    (h : NewKustomizeGenerator.walkFn ext fsys kustomizationPath templateSuffix templates e =
      .value templates') :
    templates' = templates ∨
      ∃ t, templates' = templates ++ [t] ∧ e.regular = true ∧
        HasSuffix e.path templateSuffix = true ∧
        ext.Rel kustomizationPath e.path = .ok t.Name ∧ t.option = MissingKey.zero := by
  unfold NewKustomizeGenerator.walkFn at h
  cases herr : e.err with
  | some err => simp [herr] at h
  | none =>
    simp only [herr] at h
    by_cases hreg : e.regular = true
    · by_cases hsuf : HasSuffix e.path templateSuffix = true
      · simp only [hreg, hsuf, Bool.not_true, Bool.false_eq_true, if_false] at h
        cases hread : fsys.ReadFile e.path with
        | error err => simp [hread] at h
        | ok raw =>
          simp only [hread] at h
          cases hrel : ext.Rel kustomizationPath e.path with
          | error err => simp [hrel] at h
          | ok name =>
            simp only [hrel, Template.Parse] at h
            cases hparse : ext.Parse raw with
            | error err => simp [hparse] at h
            | ok tree =>
              simp only [hparse, Outcome.value.injEq] at h
              right
              refine ⟨_, h.symm, hreg, hsuf, rfl, ?_⟩
              simp [Template.Option, Template.New]
      · simp only [hreg, hsuf, Bool.not_true, Bool.false_eq_true, if_false, Bool.not_false,
          if_true, Outcome.value.injEq] at h
        exact Or.inl h.symm
    · simp only [hreg, Bool.not_false, if_true, Outcome.value.injEq] at h
      exact Or.inl h.symm

/-- The templates a completed walk has collected: each one comes from a regular entry with
the template suffix, is named by the entry's relative path and has option `missingkey=zero`;
their names, in order, are among the relative paths of the visited entries, in order. -/
theorem walk_value {ResMap : Type} (ext : Externals ResMap) (fsys : FS)
    (kustomizationPath templateSuffix : String) (es : List WalkEntry)
    (acc ts : List Template)
    (h : NewKustomizeGenerator.walk ext fsys kustomizationPath templateSuffix es acc = .value ts) :
    ∃ added, ts = acc ++ added ∧
      List.Sublist (added.map Template.Name)
        (es.filterMap (fun e => (ext.Rel kustomizationPath e.path).toOption)) ∧
      ∀ t ∈ added, t.option = MissingKey.zero ∧
        ∃ e ∈ es, e.regular = true ∧ HasSuffix e.path templateSuffix = true ∧
          ext.Rel kustomizationPath e.path = .ok t.Name := by
  induction es generalizing acc with
  | nil =>
    simp only [NewKustomizeGenerator.walk, Outcome.value.injEq] at h
    exact ⟨[], by simp [h], by simp, by simp⟩
  | cons e rest ih =>
    cases hfn : NewKustomizeGenerator.walkFn ext fsys kustomizationPath templateSuffix acc e with
    | error err => simp [NewKustomizeGenerator.walk, hfn] at h
    | panic err => simp [NewKustomizeGenerator.walk, hfn] at h
    | value acc' =>
      simp only [NewKustomizeGenerator.walk, hfn] at h
      obtain ⟨added, hts, hsub, hall⟩ := ih acc' h
      rcases walkFn_value ext fsys kustomizationPath templateSuffix acc acc' e hfn with
        hsame | ⟨t, hacc', hreg, hsuf, hrel, hopt⟩
      · refine ⟨added, by rw [hts, hsame], ?_, ?_⟩
        · exact hsub.trans ((List.sublist_cons_self e rest).filterMap _)
        · intro t ht
          obtain ⟨hopt, e', he', hrest⟩ := hall t ht
          exact ⟨hopt, e', List.mem_cons_of_mem _ he', hrest⟩
      · refine ⟨t :: added, by rw [hts, hacc', List.append_assoc, List.singleton_append], ?_, ?_⟩
        · simp only [List.map_cons, List.filterMap_cons, hrel, Except.toOption]
          exact hsub.cons₂ _
        · intro t' ht'
          rcases List.mem_cons.mp ht' with rfl | hmem
          · exact ⟨hopt, e, List.mem_cons_self _ _, hreg, hsuf, hrel⟩
          · obtain ⟨hopt', e', he', hrest⟩ := hall t' hmem
            exact ⟨hopt', e', List.mem_cons_of_mem _ he', hrest⟩

/-- The templates of a generator built by `NewKustomizeGenerator` are those the walk of the
resolved file system collects, starting from none. -/
theorem NewKustomizeGenerator_templates {ResMap Client : Type} (ext : Externals ResMap)
    (fsys : Option FS) (kustomizationPath templateSuffix : String) (client : Client)
    (g : KustomizeGenerator) (fs : FS) (root : String)
    (hres : NewKustomizeGenerator.resolve ext fsys kustomizationPath = .ok (fs, root))
    (hg : NewKustomizeGenerator ext fsys kustomizationPath templateSuffix client = .value g) :
    NewKustomizeGenerator.walk ext fs root templateSuffix (fs.WalkDir root) [] =
      .value g.templates := by
  simp only [NewKustomizeGenerator, hres] at hg
  cases hwalk : NewKustomizeGenerator.walk ext fs root templateSuffix (fs.WalkDir root) [] with
  | error err => simp [hwalk] at hg
  | panic err => simp [hwalk] at hg
  | value ts =>
    simp only [hwalk, Outcome.value.injEq] at hg
    rw [← hg]

/-- Reading the tree of rendered artifacts gives, at every path, the rendered artifact at
that path. -/
theorem readFile_eq_renderedArtifact {ResMap : Type} (ext : Externals ResMap) (data : Data)
    (files : List (String × Bytes)) (ts : List Template)
    (h : List.Forall₂ (fun f t => f.1 = t.Name ∧ ext.Execute t data = .ok f.2) files ts)
    (path : String) :
    FsInMemory.ReadFile { files := files } path = renderedArtifact ext ts data path := by
  induction h with
  | nil => simp [FsInMemory.ReadFile, renderedArtifact]
  | @cons f t files ts hft _ ih =>
    simp only [FsInMemory.ReadFile, renderedArtifact] at ih ⊢
    by_cases hp : f.1 = path
    · have hp' : t.Name = path := hft.1.symm.trans hp
      simp only [List.find?_cons, hp, hp', decide_True, Option.map_some', hft.2,
        Except.toOption]
    · have hp' : ¬ t.Name = path := fun e => hp (hft.1.trans e)
      simp only [List.find?_cons, hp, hp', decide_False]
      exact ih

/-- C5: for a generator built by `NewKustomizeGenerator` from a walk whose entries have
pairwise distinct relative paths, and parameters for which the rendering loop completes, the
tree `Generate` hands to the overlay composer is built from the empty in-memory tree and holds
exactly the rendered artifacts: one file per template, in order, at the path equal to the
template's name, with the template's output as content; reading a path of the tree gives a
content exactly when some template has that name and that output; every template name is the
path of a regular source file with the template suffix, relative to the kustomization path.
The composer is run on this tree at the path `/` and its result decides what `Generate`
returns: its error, the error of the serialisation, or the decoded documents of its output.
When the composer is that of kustomize, which reads files only through the file system it is
given, every file it reads is answered from the rendered artifacts and every other path does
not exist for it. -/
theorem Generate_tree_holds_rendered_artifacts {ResMap Client : Type} (ext : Externals ResMap)
    (fsys : Option FS) (kustomizationPath templateSuffix : String) (client : Client)
    (g : KustomizeGenerator) (fs : FS) (root : String)
    (ns name : String) (parameters : Unstructurable) (tree : FsInMemory)
    (hres : NewKustomizeGenerator.resolve ext fsys kustomizationPath = .ok (fs, root))
    (hg : NewKustomizeGenerator ext fsys kustomizationPath templateSuffix client = .value g)
    (hdistinct : ((fs.WalkDir root).filterMap
      (fun e => (ext.Rel root e.path).toOption)).Nodup)
    (hrender : renderLoop ext parameters.ToUnstructured g.templates MakeFsInMemory = .ok tree) :
    List.Forall₂ (fun f t => f.1 = t.Name ∧ ext.Execute t parameters.ToUnstructured = .ok f.2)
      tree.files g.templates ∧
    (∀ path content, tree.ReadFile path = some content ↔
      ∃ t ∈ g.templates, t.Name = path ∧ ext.Execute t parameters.ToUnstructured = .ok content) ∧
    (∀ t ∈ g.templates, ∃ e ∈ fs.WalkDir root, e.regular = true ∧
      HasSuffix e.path templateSuffix = true ∧ ext.Rel root e.path = .ok t.Name) ∧
    (∀ err, ext.Run g.kustomizer tree "/" = .error err →
      g.Generate ext ns name parameters = ([], some err)) ∧
    (∀ resmap err, ext.Run g.kustomizer tree "/" = .ok resmap → ext.AsYaml resmap = .error err →
      g.Generate ext ns name parameters = ([], some err)) ∧
    (∀ resmap raw, ext.Run g.kustomizer tree "/" = .ok resmap → ext.AsYaml resmap = .ok raw →
      g.Generate ext ns name parameters = decodeLoop (ext.NewYAMLToJSONDecoder raw) []) ∧
    (∀ c : Composer ResMap,
      (∀ kustomizer fsys path, ext.Run kustomizer fsys path = c.Run kustomizer fsys path) →
      ext.Run g.kustomizer tree "/" =
        c.RunWith g.kustomizer (renderedArtifact ext g.templates parameters.ToUnstructured) "/") := by
  have hwalk := NewKustomizeGenerator_templates ext fsys kustomizationPath templateSuffix client
    g fs root hres hg
  obtain ⟨added, hts, hsub, hall⟩ := walk_value ext fs root templateSuffix _ _ _ hwalk
  rw [List.nil_append] at hts
  subst hts
  have hnodup : (g.templates.map Template.Name).Nodup := hdistinct.sublist hsub
  obtain ⟨files, hfiles, hforall⟩ := renderLoop_files ext parameters.ToUnstructured g.templates
    MakeFsInMemory tree hrender hnodup (by simp [MakeFsInMemory])
  simp only [MakeFsInMemory, List.nil_append] at hfiles
  refine ⟨?_, ?_, ?_, ?_, ?_, ?_, ?_⟩
  · rw [hfiles]; exact hforall
  · intro path content
    have := readFile_rendered ext parameters.ToUnstructured files g.templates hforall hnodup
      path content
    rw [← hfiles] at this
    exact this
  · intro t ht
    exact (hall t ht).2
  · intro err hrun
    simp only [Generate, hrender, compose, hrun]
  · intro resmap err hrun hyaml
    simp only [Generate, hrender, compose, hrun, hyaml]
  · intro resmap raw hrun hyaml
    simp only [Generate, hrender, compose, hrun, hyaml]
  · intro c hRun
    have hread : tree.ReadFile =
        renderedArtifact ext g.templates parameters.ToUnstructured := by
      funext path
      have := readFile_eq_renderedArtifact ext parameters.ToUnstructured files g.templates
        hforall path
      rw [← hfiles] at this
      exact this
    rw [hRun, Composer.Run, hread]

/-- C5 on the example source tree: the generator built from it renders, for `env: prod`, a
tree of exactly two files, the config map with the parameter filled in and the kustomization
file; the file that is not a template is not in the tree. The composer reads the config map
from this tree (and fails on a tree without it), and `Generate` returns the decoded document
of its output. -/
theorem Generate_tree_holds_rendered_artifacts_witness :
    NewKustomizeGenerator (exampleExternals [.object (exampleConfigMap "foo: prod")])
      (some exampleFS) "deploy" ".yaml" () = .value exampleGenerator ∧
    renderLoop (exampleExternals [.object (exampleConfigMap "foo: prod")])
      exampleParameters.ToUnstructured exampleGenerator.templates MakeFsInMemory =
        .ok exampleTree ∧
    exampleTree.files = [("configmap.yaml", "foo: prod"),
      ("kustomization.yaml", "resources: [configmap.yaml]")] ∧
    exampleTree.ReadFile "README.md" = none ∧
    (exampleExternals [.object (exampleConfigMap "foo: prod")]).Run
      exampleGenerator.kustomizer exampleTree "/" = .ok [exampleConfigMap "foo: prod"] ∧
    (exampleExternals [.object (exampleConfigMap "foo: prod")]).Run exampleGenerator.kustomizer
      { files := [("kustomization.yaml", "resources: [configmap.yaml]")] } "/" =
      .error "accumulating resources: configmap.yaml: no such file or directory" ∧
    exampleGenerator.Generate (exampleExternals [.object (exampleConfigMap "foo: prod")])
      "apps" "demo" exampleParameters = ([{ Object := some (exampleConfigMap "foo: prod") }], none) ∧
    (exampleExternals [.object (exampleConfigMap "foo: prod")]).Run
      exampleGenerator.kustomizer exampleTree "/" =
      exampleComposer.RunWith exampleGenerator.kustomizer
        (renderedArtifact (exampleExternals [.object (exampleConfigMap "foo: prod")])
          exampleGenerator.templates exampleParameters.ToUnstructured) "/" := by
  have h := Generate_tree_holds_rendered_artifacts
    (exampleExternals [.object (exampleConfigMap "foo: prod")]) (some exampleFS)
    "deploy" ".yaml" () exampleGenerator exampleFS "deploy" "apps" "demo" exampleParameters
    exampleTree rfl (by decide) (by decide) (by decide)
  refine ⟨by decide, by decide, rfl, by decide, by decide, by decide, ?_, ?_⟩
  · exact h.2.2.2.2.2.1 [exampleConfigMap "foo: prod"] "foo: prod" (by decide) (by decide)
  · exact h.2.2.2.2.2.2 exampleComposer (fun _ _ _ => rfl)

/-! ## Theorems: missing keys in templates -/

/-- Under `missingkey=zero` a reference that ends at a key missing from the data evaluates
to the nil interface, without error. -/
theorem evalFieldChain_missing_zero (t : Template) (data : Data) (key : String)
    (hopt : t.option = MissingKey.zero) (hmiss : data.lookup key = none) :
    t.evalFieldChain (some (Value.map data)) [key] = .ok (some Value.nil) := by
  simp only [Template.evalFieldChain, Template.evalField, hmiss, hopt]

/-- Under `missingkey=zero` a reference that goes on through a key missing from the data
fails at the next field. -/
theorem evalFieldChain_through_missing_zero (t : Template) (data : Data)
    (key next : String) (rest : List String)
    (hopt : t.option = MissingKey.zero) (hmiss : data.lookup key = none) :
    t.evalFieldChain (some (Value.map data)) (key :: next :: rest) =
      .error ("nil pointer evaluating interface {}." ++ next) := by
  simp only [Template.evalFieldChain, Template.evalField, hmiss, hopt]

/-- Under `missingkey=error` a reference that starts at a key missing from the data
fails. -/
theorem evalFieldChain_missing_error (t : Template) (data : Data) (key : String)
    (rest : List String) (hopt : t.option = MissingKey.error) (hmiss : data.lookup key = none) :
    t.evalFieldChain (some (Value.map data)) (key :: rest) =
      .error ("map has no entry for key " ++ quote key) := by
  simp only [Template.evalFieldChain, Template.evalField, hmiss, hopt]

/-- Under `missingkey=zero` a reference of at most one field to the data does not fail. -/
theorem evalFieldChain_short_zero (t : Template) (data : Data) (ident : List String)
    (hopt : t.option = MissingKey.zero) (hlen : ident.length ≤ 1) :
    ∃ value, t.evalFieldChain (some (Value.map data)) ident = .ok value := by
  match ident, hlen with
  | [], _ => exact ⟨_, rfl⟩
  | [key], _ =>
    cases hlook : data.lookup key with
    | some v => exact ⟨some v, by simp only [Template.evalFieldChain, Template.evalField, hlook]⟩
    | none =>
      exact ⟨some Value.nil,
        by simp only [Template.evalFieldChain, Template.evalField, hlook, hopt]⟩
  | _ :: _ :: _, h => simp at h

/-- Under `missingkey=zero` the nodes of a template execute without error as long as its
references have at most one field and its other actions succeed. -/
theorem execNodes_zero (evalAction : Template → String → Data → Except Error String)
    (errorf : Template → Node → String → Error) (t : Template)
    (data : Data) (hopt : t.option = MissingKey.zero) (nodes : List Node) (buf : Bytes)
    (hfield : ∀ ident, Node.field ident ∈ nodes → ident.length ≤ 1)
    (hact : ∀ src, Node.action src ∈ nodes → ∃ out, evalAction t src data = .ok out) :
    ∃ out, Template.execNodes evalAction errorf t data nodes buf = .ok out := by
  induction nodes generalizing buf with
  | nil => exact ⟨buf, rfl⟩
  | cons n rest ih =>
    have hfield' : ∀ ident, Node.field ident ∈ rest → ident.length ≤ 1 :=
      fun ident h => hfield ident (List.mem_cons_of_mem _ h)
    have hact' : ∀ src, Node.action src ∈ rest → ∃ out, evalAction t src data = .ok out :=
      fun src hsrc => hact src (List.mem_cons_of_mem _ hsrc)
    cases n with
    | text s => simp only [Template.execNodes]; exact ih _ hfield' hact'
    | field ident =>
      obtain ⟨value, hvalue⟩ := evalFieldChain_short_zero t data ident hopt
        (hfield ident (List.mem_cons_self _ _))
      simp only [Template.execNodes, hvalue]
      exact ih _ hfield' hact'
    | action src =>
      obtain ⟨out, hout⟩ := hact src (List.mem_cons_self _ _)
      simp only [Template.execNodes, hout]
      exact ih _ hfield' hact'

/-- The execution of nodes fails when one of them is a field chain that fails. -/
theorem execNodes_of_failing_field (evalAction : Template → String → Data → Except Error String)
    (errorf : Template → Node → String → Error) (t : Template)
    (data : Data) (nodes : List Node) (buf : Bytes) (ident : List String) (msg : String)
    (hmem : Node.field ident ∈ nodes)
    (hfail : t.evalFieldChain (some (Value.map data)) ident = .error msg) :
    ∃ err, Template.execNodes evalAction errorf t data nodes buf = .error err := by
  induction nodes generalizing buf with
  | nil => simp at hmem
  | cons n rest ih =>
    rcases List.mem_cons.mp hmem with hhead | htail
    · subst hhead
      exact ⟨errorf t (.field ident) msg, by simp only [Template.execNodes, hfail]⟩
    · cases n with
      | text s => simp only [Template.execNodes]; exact ih _ htail
      | field ident' =>
        cases hchain : t.evalFieldChain (some (Value.map data)) ident' with
        | error msg' =>
          exact ⟨errorf t (.field ident') msg', by simp only [Template.execNodes, hchain]⟩
        | ok value =>
          simp only [Template.execNodes, hchain]
          exact ih _ htail
      | action src =>
        cases hout : evalAction t src data with
        | error err => exact ⟨err, by simp only [Template.execNodes, hout]⟩
        | ok out =>
          simp only [Template.execNodes, hout]
          exact ih _ htail

/-- The rendering loop fails when the execution of one of the templates fails. -/
theorem renderLoop_of_failing_template {ResMap : Type} (ext : Externals ResMap) (data : Data)
    (ts : List Template) (fsys : FsInMemory) (t : Template) (err : Error)
    (hmem : t ∈ ts) (hfail : ext.Execute t data = .error err) :
    ∃ err', renderLoop ext data ts fsys = .error err' := by
  induction ts generalizing fsys with
  | nil => simp at hmem
  | cons t' rest ih =>
    rcases List.mem_cons.mp hmem with hhead | htail
    · subst hhead
      exact ⟨err, by simp only [renderLoop, hfail]⟩
    · cases hexec : ext.Execute t' data with
      | error err' => exact ⟨err', by simp only [renderLoop, hexec]⟩
      | ok buf =>
        cases hwrite : fsys.WriteFile ext t'.Name buf with
        | error err' => exact ⟨err', by simp only [renderLoop, hexec, hwrite]⟩
        | ok fsys' =>
          simp only [renderLoop, hexec, hwrite]
          exact ih fsys' htail

/-- Every template of a generator built by `NewKustomizeGenerator` has option
`missingkey=zero`. -/
theorem NewKustomizeGenerator_option {ResMap Client : Type} (ext : Externals ResMap)
    (fsys : Option FS) (kustomizationPath templateSuffix : String) (client : Client)
    (g : KustomizeGenerator)
    (hg : NewKustomizeGenerator ext fsys kustomizationPath templateSuffix client = .value g) :
    ∀ t ∈ g.templates, t.option = MissingKey.zero := by
  cases hres : NewKustomizeGenerator.resolve ext fsys kustomizationPath with
  | error err => simp [NewKustomizeGenerator, hres] at hg
  | ok r =>
    obtain ⟨fs, root⟩ := r
    have hwalk := NewKustomizeGenerator_templates ext fsys kustomizationPath templateSuffix
      client g fs root hres hg
    obtain ⟨added, hts, _, hall⟩ := walk_value ext fs root templateSuffix _ _ _ hwalk
    rw [List.nil_append] at hts
    intro t ht
    rw [hts] at ht
    exact (hall t ht).1

/-- C4 refuted: the generator built from the example source tree has a template that
references `.a.b`; the key `a` is missing from the parameters, and the execution of the
template fails under `missingkey=zero`, so that `Generate` returns a nil list and an
error. -/
theorem missing_key_zero_counterexample :
    NewKustomizeGenerator (exampleExternals []) (some exampleChainFS) "deploy" ".yaml" () =
      .value exampleChainGenerator ∧
    exampleParameters.ToUnstructured.lookup "a" = none ∧
    (∀ t ∈ exampleChainGenerator.templates, t.option = MissingKey.zero) ∧
    (exampleExternals []).Execute
        { Name := "configmap.yaml", option := MissingKey.zero,
          Tree := [Node.text "foo: ", Node.field ["a", "b"]] }
        exampleParameters.ToUnstructured =
      .error (exampleErrorf
        { Name := "configmap.yaml", option := MissingKey.zero,
          Tree := [Node.text "foo: ", Node.field ["a", "b"]] }
        (Node.field ["a", "b"]) "nil pointer evaluating interface {}.b") ∧
    (exampleChainGenerator.Generate (exampleExternals []) "apps" "demo" exampleParameters).1 = [] ∧
    (exampleChainGenerator.Generate (exampleExternals []) "apps" "demo" exampleParameters).2 ≠
      none :=
  ⟨by decide, rfl, by decide, by decide, by decide, by decide⟩

/-- C4 as amended: with field references executed as Go `text/template` executes them, a
reference to a key missing from the data is handled asymmetrically. In every template of a
generator built by `NewKustomizeGenerator` (option `missingkey=zero`) a reference that ends at
the missing key evaluates to the zero value, a nil interface, and a template whose references
have at most one field executes without error whenever its other actions do; a reference that
goes on through the missing key fails at the next field, the execution of the template fails
and `Generate` returns a nil list and an error. In `renderTemplate` (option
`missingkey=error`) a parsed template with a reference that starts at a missing key gives a
nil output and an error. -/
theorem missing_key_asymmetry {ResMap Client : Type} (ext : Externals ResMap)
    (evalAction : Template → String → Data → Except Error String)
    (errorf : Template → Node → String → Error)
    (hE : ext.Execute = Template.Execute evalAction errorf) :
    (∀ (fsys : Option FS) (kustomizationPath templateSuffix : String) (client : Client)
        (g : KustomizeGenerator),
      NewKustomizeGenerator ext fsys kustomizationPath templateSuffix client = .value g →
      ∀ t ∈ g.templates, ∀ data : Data,
        (∀ key, data.lookup key = none →
          t.evalFieldChain (some (Value.map data)) [key] = .ok (some Value.nil)) ∧
        ((∀ ident, Node.field ident ∈ t.Tree → ident.length ≤ 1) →
          (∀ src, Node.action src ∈ t.Tree → ∃ out, evalAction t src data = .ok out) →
          ∃ buf, ext.Execute t data = .ok buf) ∧
        (∀ key next rest, data.lookup key = none →
          t.evalFieldChain (some (Value.map data)) (key :: next :: rest) =
            .error ("nil pointer evaluating interface {}." ++ next)) ∧
        (∀ key next rest, Node.field (key :: next :: rest) ∈ t.Tree →
          data.lookup key = none →
          (∃ err, ext.Execute t data = .error err) ∧
          ∀ (ns name : String) (parameters : Unstructurable),
            parameters.ToUnstructured = data →
            ∃ err, g.Generate ext ns name parameters = ([], some err))) ∧
    (∀ (name : String) (tpl : Bytes) (data : Data) (nodes : List Node) (key : String)
        (rest : List String),
      ext.Parse tpl = .ok nodes → Node.field (key :: rest) ∈ nodes → data.lookup key = none →
      ∃ err, scaffold.renderTemplate ext name tpl data = ("", some err)) := by
  constructor
  · intro fsys kustomizationPath templateSuffix client g hg t ht data
    have hopt := NewKustomizeGenerator_option ext fsys kustomizationPath templateSuffix client
      g hg t ht
    refine ⟨?_, ?_, ?_, ?_⟩
    · intro key hmiss
      exact evalFieldChain_missing_zero t data key hopt hmiss
    · intro hfield hact
      rw [hE]
      exact execNodes_zero evalAction errorf t data hopt t.Tree "" hfield hact
    · intro key next rest hmiss
      exact evalFieldChain_through_missing_zero t data key next rest hopt hmiss
    · intro key next rest hmem hmiss
      have hexec : ∃ err, ext.Execute t data = .error err := by
        rw [hE]
        exact execNodes_of_failing_field evalAction errorf t data t.Tree "" _ _ hmem
          (evalFieldChain_through_missing_zero t data key next rest hopt hmiss)
      refine ⟨hexec, ?_⟩
      intro ns name parameters hdata
      obtain ⟨err, herr⟩ := hexec
      obtain ⟨err', herr'⟩ := renderLoop_of_failing_template ext data g.templates
        MakeFsInMemory t err ht herr
      exact ⟨err', by simp only [Generate, hdata, herr']⟩
  · intro name tpl data nodes key rest hparse hmem hmiss
    have hopt : ({ (Template.New name).Option "missingkey=error" with Tree := nodes } :
        Template).option = MissingKey.error := by
      simp [Template.Option, Template.New]
    obtain ⟨err, herr⟩ := execNodes_of_failing_field evalAction errorf _ data nodes "" _ _ hmem
      (evalFieldChain_missing_error _ data key rest hopt hmiss)
    refine ⟨err, ?_⟩
    simp only [scaffold.renderTemplate, Template.Parse, hparse, hE, Template.Execute, herr]

/-- C4 as amended, on the example templates and data without the keys `env` and `a`: the
generator's template referencing `.env` renders `foo: <no value>`; the generator whose
template references `.a.b` fails; `renderTemplate` returns a nil output and an error for
both texts. -/
theorem missing_key_asymmetry_witness :
    (exampleExternals []).Execute
        { Name := "configmap.yaml", option := MissingKey.zero,
          Tree := [Node.text "foo: ", Node.field ["env"]] } [] = .ok "foo: <no value>" ∧
    (∃ err, exampleChainGenerator.Generate (exampleExternals []) "apps" "demo"
        exampleParameters = ([], some err)) ∧
    (∃ err, scaffold.renderTemplate (exampleExternals []) "configmap.yaml" exampleTemplateText
        [] = ("", some err)) ∧
    ∃ err, scaffold.renderTemplate (exampleExternals []) "configmap.yaml" exampleChainText
        [] = ("", some err) := by
  have h := @missing_key_asymmetry (List ObjectMap) Unit (exampleExternals []) exampleEvalAction
    exampleErrorf rfl
  refine ⟨by decide, ?_, ?_, ?_⟩
  · exact ((h.1 (some exampleChainFS) "deploy" ".yaml" () exampleChainGenerator (by decide)
      { Name := "configmap.yaml", option := MissingKey.zero,
        Tree := [Node.text "foo: ", Node.field ["a", "b"]] } (by decide)
      exampleParameters.ToUnstructured).2.2.2 "a" "b" [] (by decide) rfl).2
      "apps" "demo" exampleParameters rfl
  · exact h.2 "configmap.yaml" exampleTemplateText [] [Node.text "foo: ", Node.field ["env"]]
      "env" [] (by decide) (by decide) rfl
  · exact h.2 "configmap.yaml" exampleChainText [] [Node.text "foo: ", Node.field ["a", "b"]]
      "a" ["b"] (by decide) (by decide) rfl

end manifests

/-! ## Theorems: the inventory reconciler -/

namespace reconciler

open component manifests

/-- An item in an active phase is not in the terminal phase Completed. -/
theorem isActivePhase_ne_completed (phase : String) (h : isActivePhase phase = true) :
    phase ≠ PhaseCompleted := by
  intro hc
  subst hc
  revert h
  decide

/-- An active item whose identity is not desired is given phase ScheduledForDeletion,
whatever the digests of the desired objects. -/
theorem reconcileItem_of_absent (ds : List (ObjectMap × Option String)) (item : InventoryItem)
    (hactive : isActivePhase item.Phase = true)
    (habsent : itemIdentity item ∉ (ds.map Prod.fst).map objectIdentity) :
    reconcileItem ds item = { item with Phase := PhaseScheduledForDeletion } := by
  have hfind : ds.find? (fun d => objectIdentity d.1 = itemIdentity item) = none := by
    rw [List.find?_eq_none]
    intro d hd hid
    apply habsent
    rw [List.map_map]
    exact List.mem_map.mpr ⟨d, hd, by simpa using hid⟩
  simp only [reconcileItem, hactive, if_true, hfind]

/-- The digests are paired with the desired objects themselves, in order. -/
theorem digests_fst (hash : String → Option String) (desired : List ObjectMap) :
    (digests hash desired).map Prod.fst = desired := by
  simp [digests, List.map_map, Function.comp_def]

/-- C6: in the reconciler as the spec describes it, an item of the previous inventory that is
in an active phase and whose identity is absent from the desired object set of the pass is in
the inventory after the pass, with phase ScheduledForDeletion and otherwise unchanged: the
purge of Completed items does not remove it and a body that cannot be hashed does not stop
it from being marked. The pass returns such an inventory whenever the desired identities are
distinct. -/
theorem reconcile_marks_for_deletion (hash : String → Option String)
    (inventory : List InventoryItem) (desired : List ObjectMap) (item : InventoryItem)
    (hmem : item ∈ inventory) (hactive : isActivePhase item.Phase = true)
    (habsent : itemIdentity item ∉ desired.map objectIdentity) :
    (∀ next, reconcile hash inventory desired = .ok next →
      { item with Phase := PhaseScheduledForDeletion } ∈ next) ∧
    ((desired.map objectIdentity).Nodup →
      ∃ next, reconcile hash inventory desired = .ok next ∧
        { item with Phase := PhaseScheduledForDeletion } ∈ next) := by
  have hkept : item ∈ inventory.filter (fun item => item.Phase ≠ PhaseCompleted) := by
    rw [List.mem_filter]
    exact ⟨hmem, by simpa using isActivePhase_ne_completed item.Phase hactive⟩
  have key : ∀ next, reconcile hash inventory desired = .ok next →
      { item with Phase := PhaseScheduledForDeletion } ∈ next := by
    intro next hnext
    unfold reconcile at hnext
    by_cases hnodup : (desired.map objectIdentity).Nodup
    · simp only [hnodup, not_true_eq_false, if_false, Except.ok.injEq] at hnext
      rw [← hnext, List.mem_append]
      left
      rw [← reconcileItem_of_absent (digests hash desired) item hactive
        (by rw [digests_fst]; exact habsent)]
      exact List.mem_map_of_mem _ hkept
    · simp [hnodup] at hnext
  refine ⟨key, ?_⟩
  intro hnodup
  have hok : ∃ next, reconcile hash inventory desired = .ok next := by
    simp only [reconcile, hnodup, not_true_eq_false, if_false]
    exact ⟨_, rfl⟩
  obtain ⟨next, hnext⟩ := hok
  exact ⟨next, hnext, key next hnext⟩

/-- C6 on scenario B of the spec: the first pass with desired objects A and B creates both
items; after both became Ready, the second pass with desired object A alone leaves A as it
is and keeps B, with phase ScheduledForDeletion. In a pass whose inventory also holds a
Completed item and whose desired set also holds an object that cannot be hashed, B is marked
all the same, the Completed item is purged and no item is created for the unhashable
object. -/
theorem reconcile_marks_for_deletion_witness :
    reconcile exampleHash [] [exampleConfigMap "foo: prod", exampleSecret] =
      .ok [exampleItemA PhaseScheduledForApplication, exampleItemB PhaseScheduledForApplication] ∧
    reconcile exampleHash [exampleItemA PhaseReady, exampleItemB PhaseReady]
      [exampleConfigMap "foo: prod"] =
      .ok [exampleItemA PhaseReady, exampleItemB PhaseScheduledForDeletion] ∧
    reconcile exampleHash
      [exampleItemA PhaseReady, exampleItemC PhaseCompleted, exampleItemB PhaseReady]
      [exampleConfigMap "foo: prod", exampleUnhashable] =
      .ok [exampleItemA PhaseReady, exampleItemB PhaseScheduledForDeletion] ∧
    exampleItemB PhaseScheduledForDeletion ∈
      [exampleItemA PhaseReady, exampleItemB PhaseScheduledForDeletion] := by
  have h := (reconcile_marks_for_deletion exampleHash
    [exampleItemA PhaseReady, exampleItemC PhaseCompleted, exampleItemB PhaseReady]
    [exampleConfigMap "foo: prod", exampleUnhashable]
    (exampleItemB PhaseReady) (by decide) (by decide) (by decide)).1
    [exampleItemA PhaseReady, exampleItemB PhaseScheduledForDeletion] (by decide)
  exact ⟨by decide, by decide, by decide, h⟩

end reconciler

/-! ## Theorems: the errors of the scaffold configuration -/

namespace scaffold

open manifests

/-- The error of `validateAndDefaultConfig`, as a chain over the ten required fields. -/
theorem validateAndDefaultConfig_error_eq (ToLower : String → String) (config : Config) :
    (validateAndDefaultConfig ToLower config).1 =
      if config.Owner = "" then some "missing or empty config flag: --owner"
      else if config.GroupName = "" then some "missing or empty config flag: --group-name"
      else if config.GroupVersion = "" then some "missing or empty config flag: --group-version"
      else if config.Kind = "" then some "missing or empty config flag: --kind"
      else if config.OperatorName = "" then some "missing or empty config flag: --operator-name"
      else if config.GoVersion = "" then some "missing or empty config flag: --go-version"
      else if config.GoModule = "" then some "missing or empty config flag: --go-module"
      else if config.KubernetesVersion = "" then
        some "missing or empty config flag: --kubernetes-version"
      else if config.ControllerRuntimeVersion = "" then
        some "missing or empty config flag: --controller-runtime-version"
      else if config.Image = "" then some "missing or empty config flag: --image"
      else none := by
  by_cases hO : config.Owner = ""
  · simp only [validateAndDefaultConfig, hO, if_true]
  by_cases hG : config.GroupName = ""
  · simp only [validateAndDefaultConfig, hO, hG, if_true, if_false]
  by_cases hV : config.GroupVersion = ""
  · simp only [validateAndDefaultConfig, hO, hG, hV, if_true, if_false]
  by_cases hK : config.Kind = ""
  · simp only [validateAndDefaultConfig, hO, hG, hV, hK, if_true, if_false]
  simp only [validateAndDefaultConfig, hO, hG, hV, hK, if_false]
  by_cases hR : config.Resource = ""
  · simp only [hR, if_true]
    split_ifs <;> rfl
  · simp only [hR, if_false]
    split_ifs <;> rfl

/-- The message for the first empty one of ten fields listed with their flags. -/
theorem firstEmpty_message_eq (a1 a2 a3 a4 a5 a6 a7 a8 a9 a10 : String) :
    (([(a1, "owner"), (a2, "group-name"), (a3, "group-version"), (a4, "kind"),
      (a5, "operator-name"), (a6, "go-version"), (a7, "go-module"), (a8, "kubernetes-version"),
      (a9, "controller-runtime-version"), (a10, "image")] : List (String × String)).find?
        (fun field => field.1 = "")).map (fun p => "missing or empty config flag: --" ++ p.2) =
      if a1 = "" then some "missing or empty config flag: --owner"
      else if a2 = "" then some "missing or empty config flag: --group-name"
      else if a3 = "" then some "missing or empty config flag: --group-version"
      else if a4 = "" then some "missing or empty config flag: --kind"
      else if a5 = "" then some "missing or empty config flag: --operator-name"
      else if a6 = "" then some "missing or empty config flag: --go-version"
      else if a7 = "" then some "missing or empty config flag: --go-module"
      else if a8 = "" then some "missing or empty config flag: --kubernetes-version"
      else if a9 = "" then some "missing or empty config flag: --controller-runtime-version"
      else if a10 = "" then some "missing or empty config flag: --image"
      else none := by
  by_cases h1 : a1 = ""
  · simp only [List.find?_cons, h1, decide_True, Option.map_some', if_true]; rfl
  by_cases h2 : a2 = ""
  · simp only [List.find?_cons, h1, h2, decide_True, decide_False, Option.map_some', if_true, if_false]; rfl
  by_cases h3 : a3 = ""
  · simp only [List.find?_cons, h1, h2, h3, decide_True, decide_False, Option.map_some', if_true, if_false]; rfl
  by_cases h4 : a4 = ""
  · simp only [List.find?_cons, h1, h2, h3, h4, decide_True, decide_False, Option.map_some', if_true, if_false]; rfl
  by_cases h5 : a5 = ""
  · simp only [List.find?_cons, h1, h2, h3, h4, h5, decide_True, decide_False, Option.map_some', if_true, if_false]; rfl
  by_cases h6 : a6 = ""
  · simp only [List.find?_cons, h1, h2, h3, h4, h5, h6, decide_True, decide_False, Option.map_some', if_true, if_false]; rfl
  by_cases h7 : a7 = ""
  · simp only [List.find?_cons, h1, h2, h3, h4, h5, h6, h7, decide_True, decide_False, Option.map_some', if_true, if_false]; rfl
  by_cases h8 : a8 = ""
  · simp only [List.find?_cons, h1, h2, h3, h4, h5, h6, h7, h8, decide_True, decide_False, Option.map_some', if_true, if_false]; rfl
  by_cases h9 : a9 = ""
  · simp only [List.find?_cons, h1, h2, h3, h4, h5, h6, h7, h8, h9, decide_True, decide_False, Option.map_some', if_true, if_false]; rfl
  by_cases h10 : a10 = ""
  · simp only [List.find?_cons, h1, h2, h3, h4, h5, h6, h7, h8, h9, h10, decide_True, decide_False, Option.map_some', if_true, if_false]; rfl
  simp only [List.find?_cons, List.find?_nil, h1, h2, h3, h4, h5, h6, h7, h8, h9, h10, decide_False, Option.map_none', if_false]

/-- A chain of ten checks returns an error exactly when one of the checks fires. -/
theorem error_chain_ne_none (p1 p2 p3 p4 p5 p6 p7 p8 p9 p10 : Prop)
    [Decidable p1] [Decidable p2] [Decidable p3] [Decidable p4] [Decidable p5]
    [Decidable p6] [Decidable p7] [Decidable p8] [Decidable p9] [Decidable p10]
    (m1 m2 m3 m4 m5 m6 m7 m8 m9 m10 : String) :
    ((if p1 then some m1 else if p2 then some m2 else if p3 then some m3
      else if p4 then some m4 else if p5 then some m5 else if p6 then some m6
      else if p7 then some m7 else if p8 then some m8 else if p9 then some m9
      else if p10 then some m10 else none) ≠ none) ↔
      (p1 ∨ p2 ∨ p3 ∨ p4 ∨ p5 ∨ p6 ∨ p7 ∨ p8 ∨ p9 ∨ p10) := by
  by_cases h1 : p1
  · simp [h1]
  by_cases h2 : p2
  · simp [h1, h2]
  by_cases h3 : p3
  · simp [h1, h2, h3]
  by_cases h4 : p4
  · simp [h1, h2, h3, h4]
  by_cases h5 : p5
  · simp [h1, h2, h3, h4, h5]
  by_cases h6 : p6
  · simp [h1, h2, h3, h4, h5, h6]
  by_cases h7 : p7
  · simp [h1, h2, h3, h4, h5, h6, h7]
  by_cases h8 : p8
  · simp [h1, h2, h3, h4, h5, h6, h7, h8]
  by_cases h9 : p9
  · simp [h1, h2, h3, h4, h5, h6, h7, h8, h9]
  by_cases h10 : p10
  · simp [h1, h2, h3, h4, h5, h6, h7, h8, h9, h10]
  simp [h1, h2, h3, h4, h5, h6, h7, h8, h9, h10]

/-- C11: `validateAndDefaultConfig` returns an error if and only if at least one of Owner,
GroupName, GroupVersion, Kind, OperatorName, GoVersion, GoModule, KubernetesVersion,
ControllerRuntimeVersion, Image is empty; the error is the message naming the flag of the
first empty field in that order; and the error does not depend on Resource or Version, so an
empty Resource or Version never causes one. -/
theorem validateAndDefaultConfig_error (ToLower : String → String) (config : Config) :
    ((validateAndDefaultConfig ToLower config).1 ≠ none ↔
      (config.Owner = "" ∨ config.GroupName = "" ∨ config.GroupVersion = "" ∨
        config.Kind = "" ∨ config.OperatorName = "" ∨ config.GoVersion = "" ∨
        config.GoModule = "" ∨ config.KubernetesVersion = "" ∨
        config.ControllerRuntimeVersion = "" ∨ config.Image = "")) ∧
    (validateAndDefaultConfig ToLower config).1 =
      (firstEmptyFlag config).map (fun flag => "missing or empty config flag: --" ++ flag) ∧
    ∀ resource version : String,
      (validateAndDefaultConfig ToLower
        { config with Resource := resource, Version := version }).1 =
        (validateAndDefaultConfig ToLower config).1 := by
  refine ⟨?_, ?_, ?_⟩
  · rw [validateAndDefaultConfig_error_eq]
    exact error_chain_ne_none _ _ _ _ _ _ _ _ _ _ _ _ _ _ _ _ _ _ _ _
  · rw [validateAndDefaultConfig_error_eq, firstEmptyFlag, requiredFlags, Option.map_map]
    exact (firstEmpty_message_eq _ _ _ _ _ _ _ _ _ _).symm
  · intro resource version
    exact (validateAndDefaultConfig_error_eq ToLower _).trans
      (validateAndDefaultConfig_error_eq ToLower config).symm

/-- C11 on the example config: no error as it is, also with Resource and Version empty; with
Kind and Image both empty the error names `--kind`, the first of the two. -/
theorem validateAndDefaultConfig_error_witness :
    (validateAndDefaultConfig asciiToLower exampleConfig).1 = none ∧
    (validateAndDefaultConfig asciiToLower
      { exampleConfig with Resource := "", Version := "" }).1 = none ∧
    (validateAndDefaultConfig asciiToLower { exampleConfig with Kind := "", Image := "" }).1 =
      some "missing or empty config flag: --kind" := by
  have h := validateAndDefaultConfig_error asciiToLower exampleConfig
  have h' := validateAndDefaultConfig_error asciiToLower
    { exampleConfig with Kind := "", Image := "" }
  have h1 : (validateAndDefaultConfig asciiToLower exampleConfig).1 = none := by
    rw [h.2.1]; decide
  refine ⟨h1, (h.2.2 "" "").trans h1, ?_⟩
  rw [h'.2.1]; decide

end scaffold

/-! ## Theorems: the post-read hook and the accessors together -/

namespace v1alpha1

/-- The component after `PostReadHook`, field by field. -/
theorem PostReadHook_state {Context Client : Type} (ctx : Context) (client : Client)
    (c : HelmComponent) :
    (PostReadHook ctx client c).2 =
      { c with Spec := { toSpec :=
        { Namespace := if c.Spec.toSpec.Namespace = "" then c.toObjectMeta.Namespace
            else c.Spec.toSpec.Namespace,
          Name := if c.Spec.toSpec.Name = "" then c.toObjectMeta.Name
            else c.Spec.toSpec.Name } } } := by
  unfold PostReadHook
  by_cases h1 : c.Spec.toSpec.Namespace = "" <;> by_cases h2 : c.Spec.toSpec.Name = "" <;>
    simp [h1, h2, HelmComponent.setSpecNamespace, HelmComponent.setSpecName]

/-- C12: for every HelmComponent `c`, `GetDeploymentNamespace` and `GetDeploymentName` return
the same values after `PostReadHook` as before it, after the hook these values are the
component's `Spec.Namespace` and `Spec.Name`, and applying the hook a second time returns no
error and leaves the component as the first application left it. -/
theorem PostReadHook_preserves_accessors {Context Client : Type} (ctx : Context)
    (client : Client) (c : HelmComponent) :
    (PostReadHook ctx client c).2.GetDeploymentNamespace.1 = c.GetDeploymentNamespace.1 ∧
    (PostReadHook ctx client c).2.GetDeploymentName.1 = c.GetDeploymentName.1 ∧
    (PostReadHook ctx client c).2.GetDeploymentNamespace.1 =
      (PostReadHook ctx client c).2.Spec.toSpec.Namespace ∧
    (PostReadHook ctx client c).2.GetDeploymentName.1 =
      (PostReadHook ctx client c).2.Spec.toSpec.Name ∧
    PostReadHook ctx client (PostReadHook ctx client c).2 = PostReadHook ctx client c := by
  have hidem : (PostReadHook ctx client (PostReadHook ctx client c).2).2 =
      (PostReadHook ctx client c).2 := by
    rw [PostReadHook_state ctx client (PostReadHook ctx client c).2, PostReadHook_state ctx client c]
    by_cases h1 : c.Spec.toSpec.Namespace = "" <;> by_cases h2 : c.Spec.toSpec.Name = "" <;>
      by_cases h3 : c.toObjectMeta.Namespace = "" <;> by_cases h4 : c.toObjectMeta.Name = "" <;>
      simp [h1, h2, h3, h4]
  refine ⟨?_, ?_, ?_, ?_, ?_⟩
  · rw [PostReadHook_state]
    unfold HelmComponent.GetDeploymentNamespace
    by_cases h1 : c.Spec.toSpec.Namespace = "" <;> by_cases h3 : c.toObjectMeta.Namespace = "" <;>
      simp [h1, h3]
  · rw [PostReadHook_state]
    unfold HelmComponent.GetDeploymentName
    by_cases h2 : c.Spec.toSpec.Name = "" <;> by_cases h4 : c.toObjectMeta.Name = "" <;>
      simp [h2, h4]
  · rw [PostReadHook_state]
    unfold HelmComponent.GetDeploymentNamespace
    by_cases h1 : c.Spec.toSpec.Namespace = "" <;> by_cases h3 : c.toObjectMeta.Namespace = "" <;>
      simp [h1, h3]
  · rw [PostReadHook_state]
    unfold HelmComponent.GetDeploymentName
    by_cases h2 : c.Spec.toSpec.Name = "" <;> by_cases h4 : c.toObjectMeta.Name = "" <;>
      simp [h2, h4]
  · exact Prod.ext rfl hidem

/-- C12 on the example component, whose overrides are empty: the accessors return `apps` and
`my-chart` before and after the hook, and a second application changes nothing. -/
theorem PostReadHook_preserves_accessors_witness :
    exampleComponent.GetDeploymentNamespace.1 = "apps" ∧
    (PostReadHook () () exampleComponent).2.GetDeploymentNamespace.1 = "apps" ∧
    (PostReadHook () () exampleComponent).2.GetDeploymentName.1 = "my-chart" ∧
    (PostReadHook () () exampleComponent).2.Spec.toSpec.Namespace = "apps" ∧
    PostReadHook () () (PostReadHook () () exampleComponent).2 =
      PostReadHook () () exampleComponent := by
  have h := PostReadHook_preserves_accessors () () exampleComponent
  have h1 : exampleComponent.GetDeploymentNamespace.1 = "apps" := by decide
  have h2 : exampleComponent.GetDeploymentName.1 = "my-chart" := by decide
  exact ⟨h1, h.1.trans h1, h.2.1.trans h2, h.2.2.1.symm.trans (h.1.trans h1), h.2.2.2.2⟩

end v1alpha1

end ComponentOperatorRuntime
